import Mathlib

/-!
Verification of the Profile Installation & Configuration Distribution Engine
of the rhinolabs-ai repository.

The repository ships the engine as the Rust library rhinolabs-core
(core/src/profiles.rs, deploy.rs, ...), whose implementation files are not
part of the available sources; the sources contain its declarations and
documentation (core/README.md, ARCHITECTURE.md, cli/README.md), the GUI
TypeScript callers (gui/src/api.ts, gui/src/pages/Profiles.tsx,
gui/src/types.ts) and end-to-end tests.  Definitions below are translated
from the declarations and callers where those exist; engine behaviour that
only the specification describes is modelled from the spec and marked as
such in the doc comments.
-/

namespace Rhinolabs

/-- Profile scope, from the Rust declaration in ARCHITECTURE.md
(`pub enum ProfileType { User, Project }`, core/README.md lines 230-233):
`user` installs into the fixed user configuration root, `project` installs a
plugin-style layout under the target path. -/
inductive ProfileType
  | user
  | project
deriving DecidableEq, Repr

/-- Auto-invoke rule, from the Rust declaration in ARCHITECTURE.md lines
98-103: `pub struct AutoInvokeRule { skill_id, trigger, description }`. -/
structure AutoInvokeRule where
  skill_id : String
  trigger : String
  description : String
deriving DecidableEq, Repr

/-- Profile record, from the Rust declaration in ARCHITECTURE.md lines
84-96 (`pub struct Profile`). -/
structure Profile where
  id : String
  name : String
  description : String
  profile_type : ProfileType
  skills : List String
  auto_invoke_rules : List AutoInvokeRule
  instructions : Option String
  generate_copilot : Bool
  generate_agents : Bool
  created_at : String
  updated_at : String
deriving DecidableEq, Repr

/-- Modelled from the spec: `SkillMeta` (§3) — id, display name, description,
category, enabled flag, content body.  The SkillRegistry implementation
(core/src/skills.rs) is not under the available sources. -/
structure SkillMeta where
  id : String
  name : String
  description : String
  category : String
  enabled : Bool
  content : String
deriving DecidableEq, Repr

/-- Modelled from the spec: the external SkillRegistry collaborator (§2),
consumed only through `resolve(id) -> SkillMeta | NotFound`. -/
abbrev SkillRegistry := String → Option SkillMeta

/-- Roles of the files generated at an install target (§4.2, §4.3 and the
layout pictures in ARCHITECTURE.md): the primary instruction file
(CLAUDE.md), the secondary-tool instructions (.github/copilot-instructions.md),
the optional master reference (AGENTS.md), and one content file per
installed skill (.claude/skills/ID/SKILL.md). -/
inductive GenPath
  | primary
  | copilot
  | agents
  | skill (id : String)
deriving DecidableEq, Repr

/-- Modelled from the spec: the file-system collaborator (§6) restricted to
the generated paths of one install target, as a map from path to content. -/
abbrev FS := GenPath → Option String

/-- On-disk record of what was last installed at a target (§3 and §6
manifest file layout): profile id, source version stamp, and the list of
generated file paths with content hashes. -/
structure InstalledManifest where
  profile_id : String
  updated_at : String
  files : List (GenPath × Nat)
deriving DecidableEq, Repr

/-- An install target: its generated-file area and its manifest, if any. -/
structure Target where
  fs : FS
  manifest : Option InstalledManifest

/-- A target with no generated files and no manifest. -/
def emptyTarget : Target :=
  { fs := fun _ => none, manifest := none }

/-- Modelled from the spec: the write operations an Install/Update run issues
against the file-system collaborator, in order (§5 ordering guarantees). -/
inductive WriteEvent
  | content (path : GenPath) (data : String)
  | remove (path : GenPath)
  | manifest (m : InstalledManifest)
deriving DecidableEq, Repr

/-- Whether an event is the manifest write. -/
def isManifestWrite : WriteEvent → Bool
  | .manifest _ => true
  | _ => false

/-- Point update of the file-system map. -/
def setFile (fs : FS) (p : GenPath) (c : String) : FS :=
  fun q => if q = p then some c else fs q

/-- Point removal from the file-system map. -/
def removeFile (fs : FS) (p : GenPath) : FS :=
  fun q => if q = p then none else fs q

/-- Effect of one write event on a target. -/
def applyEvent (t : Target) : WriteEvent → Target
  | .content p c => { t with fs := setFile t.fs p c }
  | .remove p => { t with fs := removeFile t.fs p }
  | .manifest m => { t with manifest := some m }

/-- Effect of a sequence of write events, applied in order. -/
def applyEvents (t : Target) (evs : List WriteEvent) : Target :=
  evs.foldl applyEvent t

/-- Write every file of the list into the map, in order. -/
def writeAll (fs : FS) (ws : List (GenPath × String)) : FS :=
  ws.foldl (fun a f => setFile a f.1 f.2) fs

/-- Remove every path of the list from the map, in order. -/
def removeAll (fs : FS) (ds : List GenPath) : FS :=
  ds.foldl removeFile fs

/-- Install-state of a target on inspection (§4.3): no manifest means the
profile is treated as not installed. -/
inductive InstallState
  | Absent
  | Installed
deriving DecidableEq, Repr

/-- Inspect a target: Absent precisely when no manifest exists (§8
atomicity: no manifest means treated as not installed). -/
def inspect (t : Target) : InstallState :=
  match t.manifest with
  | none => InstallState.Absent
  | some _ => InstallState.Installed

/-- Modelled from the spec: the content hash recorded in the manifest for
drift detection (§3, §9: any deterministic hash works).  A polynomial
rolling hash over the characters, reduced modulo 2^64. -/
def contentHash (s : String) : Nat :=
  s.data.foldl (fun h c => (h * 31 + c.toNat) % (2 ^ 64)) 5381

/-- Skill ids of the profile that the registry resolves. -/
def resolvedIds (p : Profile) (reg : SkillRegistry) : List String :=
  p.skills.filter (fun sid => (reg sid).isSome)

/-- Skill ids of the profile that the registry does not resolve. -/
def unresolvedIds (p : Profile) (reg : SkillRegistry) : List String :=
  p.skills.filter (fun sid => (reg sid).isNone)

/-- Content body of a resolved skill (empty for an unresolved id, which is
never materialised). -/
def skillBody (reg : SkillRegistry) (sid : String) : String :=
  match reg sid with
  | some m => m.content
  | none => ""

/-- One line of the generated skill list (§4.2: included skills with
one-line descriptions). -/
def skillLine (reg : SkillRegistry) (sid : String) : String :=
  "- " ++ sid ++ ": " ++ (match reg sid with
    | some m => m.description
    | none => "")

/-- One row of the auto-invoke table of the primary instructions
(ARCHITECTURE.md CLAUDE.md format: trigger, skill, relative path). -/
def autoInvokeRow (r : AutoInvokeRule) : String :=
  "| " ++ r.trigger ++ " | " ++ r.skill_id ++ " | .claude/skills/" ++
    r.skill_id ++ "/SKILL.md |"

/-- One row of the auto-invoke table of the secondary-tool instructions
(§4.2: the relative-path column is stripped). -/
def autoInvokeRowNoPath (r : AutoInvokeRule) : String :=
  "| " ++ r.trigger ++ " | " ++ r.skill_id ++ " |"

/-- Auto-invoke rules kept in the generated table: rules whose skill id is
absent from the resolved skill set are dropped (§4.2 edge case). -/
def keptRules (p : Profile) (reg : SkillRegistry) : List AutoInvokeRule :=
  p.auto_invoke_rules.filter (fun r => (resolvedIds p reg).contains r.skill_id)

/-- Modelled from the spec: the primary instruction document (§4.2 and the
generated CLAUDE.md format in ARCHITECTURE.md) — auto-invoke table, the
profile free-text instructions, and the included-skill list.  A pure
function of its inputs, so deterministic as §4.2 requires. -/
def renderPrimary (p : Profile) (reg : SkillRegistry) : String :=
  "# Project Instructions\n> Profile: " ++ p.id ++ "\n\n## Auto-invoke Skills\n" ++
    String.intercalate ("\n") ((keptRules p reg).map autoInvokeRow) ++
    "\n\n## Project Standards\n" ++ p.instructions.getD ("") ++
    "\n\n## Available Skills\n" ++
    String.intercalate ("\n") ((resolvedIds p reg).map (skillLine reg))

/-- Modelled from the spec: the secondary-tool instruction document (§4.2):
same semantic content with the path column stripped. -/
def renderCopilot (p : Profile) (reg : SkillRegistry) : String :=
  "# Project Instructions\n> Profile: " ++ p.id ++ "\n\n## Auto-invoke Skills\n" ++
    String.intercalate ("\n") ((keptRules p reg).map autoInvokeRowNoPath) ++
    "\n\n## Project Standards\n" ++ p.instructions.getD ("") ++
    "\n\n## Available Skills\n" ++
    String.intercalate ("\n") ((resolvedIds p reg).map (skillLine reg))

/-- Modelled from the spec: the full set of files an Install/Update run
generates for a profile (§4.2, §4.3): the primary instructions, the optional
secondary instructions and master reference (the master duplicates the
primary verbatim, §4.2), and one content file per resolved skill. -/
def genFiles (p : Profile) (reg : SkillRegistry) : List (GenPath × String) :=
  (GenPath.primary, renderPrimary p reg) ::
    ((if p.generate_copilot then [(GenPath.copilot, renderCopilot p reg)] else []) ++
     (if p.generate_agents then [(GenPath.agents, renderPrimary p reg)] else []) ++
     (resolvedIds p reg).map (fun sid => (GenPath.skill sid, skillBody reg sid)))

/-- The manifest recorded for a freshly generated file set. -/
def mkManifest (p : Profile) (files : List (GenPath × String)) : InstalledManifest :=
  { profile_id := p.id
    updated_at := p.updated_at
    files := files.map (fun f => (f.1, contentHash f.2)) }

/-- Per-skill installation error, as carried by the `skills_failed` field of
`ProfileInstallResult` (core/README.md lines 259-266); the `SkillError`
payload itself is not declared in the available sources and is modelled as
the failing id with a message. -/
structure SkillError where
  skill_id : String
  message : String
deriving DecidableEq, Repr

/-- Install result, from the Rust declaration in core/README.md lines
259-266: `pub struct ProfileInstallResult` with per-run lists of installed
and failed skills. -/
structure ProfileInstallResult where
  target_path : String
  skills_installed : List String
  skills_failed : List SkillError
  instructions_installed : Option Bool
  settings_installed : Option Bool
  output_style_installed : Option String
deriving DecidableEq, Repr

namespace Profiles

/-- Modelled from the spec: the ordered write plan of a fresh Install
(§4.3): every generated content file, then the manifest, written last
(§5 ordering guarantees). -/
def installPlan (p : Profile) (reg : SkillRegistry) : List WriteEvent :=
  (genFiles p reg).map (fun f => WriteEvent.content f.1 f.2) ++
    [WriteEvent.manifest (mkManifest p (genFiles p reg))]

/-- Modelled from the spec and the declared result type: `Profiles::install`
(core/README.md line 40; the implementation core/src/profiles.rs is not
under the available sources).  Its declared result `ProfileInstallResult`
records `skills_installed` and `skills_failed` per run, so the model
materialises every skill the registry resolves and reports each unresolved
id in `skills_failed`, rather than aborting the run. -/
def install (p : Profile) (reg : SkillRegistry) (target_path : String) (t : Target) :
    ProfileInstallResult × Target :=
  ({ target_path := target_path
     skills_installed := resolvedIds p reg
     skills_failed := (unresolvedIds p reg).map
       (fun sid => { skill_id := sid, message := "skill not found in registry" })
     instructions_installed := some true
     settings_installed := none
     output_style_installed := none },
   applyEvents t (installPlan p reg))

/-- What Update decides to do with one generated file (§4.3 Update). -/
inductive FileAction
  | write
  | skipDrift
  | keep
deriving DecidableEq, Repr

/-- First value stored under a key in an association list. -/
def lookupAssoc {κ α : Type} [DecidableEq κ] : List (κ × α) → κ → Option α
  | [], _ => none
  | e :: t, k => if e.1 = k then some e.2 else lookupAssoc t k

/-- Hash the manifest recorded for a path, if any. -/
def manifestHash (m : InstalledManifest) (q : GenPath) : Option Nat :=
  lookupAssoc m.files q

/-- Modelled from the spec: the per-file decision of Update (§4.3): a
missing file is recreated; a file whose on-disk hash differs from the
recorded hash — or that the manifest did not create — is drifted and only
overwritten under force; an untouched file is overwritten exactly when its
regenerated content differs. -/
def fileAction (force : Bool) (mh : Option Nat) (onDisk : Option String) (c : String) :
    FileAction :=
  match onDisk with
  | none => FileAction.write
  | some d =>
    match mh with
    | some h =>
      if contentHash d ≠ h then (if force then FileAction.write else FileAction.skipDrift)
      else if contentHash c = h then FileAction.keep
      else FileAction.write
    | none => if force then FileAction.write else FileAction.skipDrift

/-- The decision Update takes for file `f` against manifest `man` and the
current target `t`. -/
def updAct (force : Bool) (man : InstalledManifest) (t : Target) (f : GenPath × String) :
    FileAction :=
  fileAction force (manifestHash man f.1) (t.fs f.1) f.2

/-- New manifest entry Update records for file `f`: the regenerated hash
when the file is written or already up to date, the previously recorded
hash (if any) when the file is skipped as drifted. -/
def fileEntry (man : InstalledManifest) (act : FileAction) (f : GenPath × String) :
    Option (GenPath × Nat) :=
  match act with
  | FileAction.skipDrift => (manifestHash man f.1).map (fun h => (f.1, h))
  | _ => some (f.1, contentHash f.2)

/-- Generated files Update writes. -/
def updWrites (p : Profile) (reg : SkillRegistry) (force : Bool) (t : Target)
    (man : InstalledManifest) : List (GenPath × String) :=
  (genFiles p reg).filter (fun f => decide (updAct force man t f = FileAction.write))

/-- Generated files Update skips and reports as drifted. -/
def updDrifted (p : Profile) (reg : SkillRegistry) (force : Bool) (t : Target)
    (man : InstalledManifest) : List GenPath :=
  ((genFiles p reg).filter
    (fun f => decide (updAct force man t f = FileAction.skipDrift))).map (fun f => f.1)

/-- Manifest-recorded paths that the regenerated file set no longer
contains: removed skills are deleted from the target and the manifest
(§4.3 Update). -/
def updStale (p : Profile) (reg : SkillRegistry) (man : InstalledManifest) :
    List GenPath :=
  (man.files.map (fun e => e.1)).filter
    (fun q => ! (genFiles p reg).any (fun f => decide (f.1 = q)))

/-- Entries of the manifest Update records. -/
def updEntries (p : Profile) (reg : SkillRegistry) (force : Bool) (t : Target)
    (man : InstalledManifest) : List (GenPath × Nat) :=
  (genFiles p reg).filterMap (fun f => fileEntry man (updAct force man t f) f)

/-- The manifest Update records. -/
def updManifest (p : Profile) (reg : SkillRegistry) (force : Bool) (t : Target)
    (man : InstalledManifest) : InstalledManifest :=
  { profile_id := p.id
    updated_at := p.updated_at
    files := updEntries p reg force t man }

/-- Whether Update changes anything at all; when nothing changes the run is
a complete no-op with zero file writes (§4.3, §8 idempotence). -/
def updChanged (p : Profile) (reg : SkillRegistry) (force : Bool) (t : Target)
    (man : InstalledManifest) : Bool :=
  decide (¬ (updWrites p reg force t man = [] ∧ updStale p reg man = [] ∧
    updManifest p reg force t man = man))

/-- Modelled from the spec: the ordered write plan of an Update run —
content writes, then deletions of stale files, then (only when something
changed) the manifest write, strictly last (§5 ordering guarantees). -/
def updEvents (p : Profile) (reg : SkillRegistry) (force : Bool) (t : Target)
    (man : InstalledManifest) : List WriteEvent :=
  (updWrites p reg force t man).map (fun f => WriteEvent.content f.1 f.2) ++
    (updStale p reg man).map WriteEvent.remove ++
    (if updChanged p reg force t man then [WriteEvent.manifest (updManifest p reg force t man)]
     else [])

/-- Outcome of an Update run: the resulting target, the written, drifted
and deleted paths, whether the manifest was rewritten, and the ordered
write events the run issued. -/
structure UpdateOutcome where
  target : Target
  written : List GenPath
  drifted : List GenPath
  deleted : List GenPath
  manifest_written : Bool
  events : List WriteEvent

/-- Modelled from the spec: `Profiles::update_installed` (core/README.md
line 43; implementation not under the available sources), following §4.3
Update: load the existing manifest (none means not installed), recompute
the documents, compare hashes per file, write/skip/recreate accordingly,
delete stale files, and finally record the manifest. -/
def update_installed (p : Profile) (reg : SkillRegistry) (force : Bool) (t : Target) :
    Option UpdateOutcome :=
  match t.manifest with
  | none => none
  | some man =>
    some { target := applyEvents t (updEvents p reg force t man)
           written := (updWrites p reg force t man).map (fun f => f.1)
           drifted := updDrifted p reg force t man
           deleted := updStale p reg man
           manifest_written := updChanged p reg force t man
           events := updEvents p reg force t man }

end Profiles

/-- Input of `Profiles::create`, from the Rust declaration in
core/README.md lines 32-37 (id, name, description, profile_type); the GUI
caller additionally passes the assigned skills
(gui/src/pages/Profiles.tsx, handleCreate). -/
structure CreateProfileInput where
  id : String
  name : String
  description : String
  profile_type : ProfileType
  skills : List String
deriving Repr

/-- Partial update input of `update_profile`, from the GUI caller
(gui/src/pages/Profiles.tsx, handleUpdate: name, description, profileType). -/
structure UpdateProfileInput where
  name : Option String
  description : Option String
  profile_type : Option ProfileType
deriving Repr

/-- Modelled from the spec: the persistent ProfileStore state backed by
profiles.json (§4.1; core/src/profiles.rs is not under the available
sources), with the conventional default/main user profile marker. -/
structure ProfileStoreState where
  profiles : List Profile
  default_user : Option String
deriving Repr

/-- Modelled from the spec: the typed error outcomes of ProfileStore
operations (§4.1 and §7 validation errors). -/
inductive StoreError
  | InvalidId
  | AlreadyExists
  | UserProfileExists
  | NotFound
  | Protected
  | WrongScope
deriving DecidableEq, Repr

/-- Characters allowed in a kebab-case profile id (§3: id is kebab-case). -/
def isKebabChar (c : Char) : Bool :=
  c.isLower || c.isDigit || c = '-'

/-- Modelled from the spec: profile-id validation (§3, §4.1 InvalidId). -/
def validProfileId (id : String) : Bool :=
  (! id.isEmpty) && id.data.all isKebabChar

/-- A profile built from a create input; skill-id uniqueness is enforced on
the way in (§3: ordered set of skill ids, uniqueness enforced). -/
def newProfile (input : CreateProfileInput) (now : String) : Profile :=
  { id := input.id
    name := input.name
    description := input.description
    profile_type := input.profile_type
    skills := input.skills.eraseDups
    auto_invoke_rules := []
    instructions := none
    generate_copilot := false
    generate_agents := false
    created_at := now
    updated_at := now }

/-- Whether a profile has user scope. -/
def isUserProfile (q : Profile) : Bool :=
  decide (q.profile_type = ProfileType.user)

/-- Number of user-scope profiles in a collection; the §3 invariant is that
this never exceeds one. -/
def userCount (ps : List Profile) : Nat :=
  ps.countP isUserProfile

namespace ProfileStore

/-- Modelled from the spec: `create(input)` (§4.1) — validation of the id,
of id uniqueness and of the single-user-profile constraint (§2) happens
before any mutation; on error the state is returned unchanged. -/
def create (st : ProfileStoreState) (input : CreateProfileInput) (now : String) :
    ProfileStoreState × Except StoreError Profile :=
  if ! validProfileId input.id then (st, Except.error StoreError.InvalidId)
  else if st.profiles.any (fun q => decide (q.id = input.id)) then
    (st, Except.error StoreError.AlreadyExists)
  else if input.profile_type = ProfileType.user ∧
      st.profiles.any isUserProfile then
    (st, Except.error StoreError.UserProfileExists)
  else
    (({ st with profiles := st.profiles ++ [newProfile input now] }),
      Except.ok (newProfile input now))

/-- Apply a partial update to one profile record (whole-record
read-modify-write, §4.1). -/
def applyUpdate (u : UpdateProfileInput) (now : String) (q : Profile) : Profile :=
  { q with
    name := u.name.getD q.name
    description := u.description.getD q.description
    profile_type := u.profile_type.getD q.profile_type
    updated_at := now }

/-- Replace the first profile with the given id. -/
def replaceFirst (id : String) (f : Profile → Profile) : List Profile → List Profile
  | [] => []
  | q :: t => if q.id = id then f q :: t else q :: replaceFirst id f t

/-- Remove the first profile with the given id. -/
def removeFirst (id : String) : List Profile → List Profile
  | [] => []
  | q :: t => if q.id = id then t else q :: removeFirst id t

/-- Modelled from the spec: `update(id, partial)` (§4.1); the store
validates the single-user-profile constraint (§2), so a partial update that
would produce a second user-scope profile is rejected before any
mutation. -/
def update (st : ProfileStoreState) (id : String) (u : UpdateProfileInput) (now : String) :
    ProfileStoreState × Except StoreError Unit :=
  if ! st.profiles.any (fun q => decide (q.id = id)) then
    (st, Except.error StoreError.NotFound)
  else if u.profile_type = some ProfileType.user ∧
      st.profiles.any (fun q => isUserProfile q && decide (q.id ≠ id)) then
    (st, Except.error StoreError.UserProfileExists)
  else
    (({ st with profiles := replaceFirst id (applyUpdate u now) st.profiles }),
      Except.ok ())

/-- Modelled from the spec: `delete(id)` (§4.1) — the user-scope/default
profile cannot be deleted (Protected). -/
def delete (st : ProfileStoreState) (id : String) :
    ProfileStoreState × Except StoreError Unit :=
  match st.profiles.find? (fun q => decide (q.id = id)) with
  | none => (st, Except.error StoreError.NotFound)
  | some q =>
    if isUserProfile q then (st, Except.error StoreError.Protected)
    else (({ st with profiles := removeFirst id st.profiles }), Except.ok ())

/-- Modelled from the spec: `setDefaultUser(id)` (§4.1) — rejects
non-user-scope ids with WrongScope, otherwise records the marker. -/
def setDefaultUser (st : ProfileStoreState) (id : String) :
    ProfileStoreState × Except StoreError Unit :=
  match st.profiles.find? (fun q => decide (q.id = id)) with
  | none => (st, Except.error StoreError.NotFound)
  | some q =>
    if ! isUserProfile q then (st, Except.error StoreError.WrongScope)
    else (({ st with default_user := some id }), Except.ok ())

end ProfileStore

/-- Semantic version of a configuration archive, from the tag format
config-vMAJOR.MINOR.PATCH (§6, ARCHITECTURE.md deploy flow). -/
structure Semver where
  major : Nat
  minor : Nat
  patch : Nat
deriving DecidableEq, Repr

/-- Strict lexicographic order on semantic versions. -/
def Semver.lt (a b : Semver) : Bool :=
  decide (a.major < b.major) ||
    (decide (a.major = b.major) &&
      (decide (a.minor < b.minor) ||
        (decide (a.minor = b.minor) && decide (a.patch < b.patch))))

/-- MCP server record, from the TypeScript declaration in
gui/src/types.ts lines 48-52 (command, args, optional env). -/
structure McpServer where
  command : String
  args : List String
  env : Option (List (String × String))
deriving DecidableEq, Repr

/-- Modelled from the spec: the local configuration surface the packager
bundles (§4.4, §2), each collection keyed by natural id, plus the locally
recorded last-synced version (§3 SyncState). -/
structure LocalState where
  profiles : List (String × Profile)
  skills : List (String × SkillMeta)
  mcp_servers : List (String × McpServer)
  last_synced_version : Option Semver
deriving Repr

/-- Configuration archive (§3 ConfigArchive, §6 archive format): version,
changelog, creation stamp, and one serialized document per bundled
collection, each keyed by natural id. -/
structure ConfigArchive where
  version : Semver
  changelog : String
  created_at : String
  profiles : List (String × Profile)
  skills : List (String × SkillMeta)
  mcp_servers : List (String × McpServer)
deriving Repr

/-- Modelled from the spec: last-writer-wins merge of one bundled
collection keyed by natural id (§4.4): archive records overwrite matching
local records, local-only records are preserved, archive-only records are
appended. -/
def mergeColl {α : Type} (lcl ar : List (String × α)) : List (String × α) :=
  lcl.map (fun e =>
    match Profiles.lookupAssoc ar e.1 with
    | some w => (e.1, w)
    | none => e) ++
  ar.filter (fun a => ! lcl.any (fun e => decide (e.1 = a.1)))

/-- Counts of created, updated and unchanged records of one collection
merge (§4.4 MergeReport). -/
structure MergeCounts where
  created : Nat
  updated : Nat
  unchanged : Nat
deriving DecidableEq, Repr

/-- Count the outcome of merging one collection. -/
def mergeCounts {α : Type} [DecidableEq α] (lcl ar : List (String × α)) : MergeCounts :=
  { created := (ar.filter (fun a => ! lcl.any (fun e => decide (e.1 = a.1)))).length
    updated := (lcl.filter (fun e =>
      match Profiles.lookupAssoc ar e.1 with
      | some w => decide (w ≠ e.2)
      | none => false)).length
    unchanged := (lcl.filter (fun e =>
      match Profiles.lookupAssoc ar e.1 with
      | some w => decide (w = e.2)
      | none => true)).length }

/-- Merge report of an archive import (§4.4): counts per collection. -/
structure MergeReport where
  profiles : MergeCounts
  skills : MergeCounts
  mcp_servers : MergeCounts
deriving DecidableEq, Repr

namespace ConfigPackager

/-- Modelled from the spec: `ConfigPackager.import(archive)` (§4.4;
core/src/deploy.rs is not under the available sources): a last-writer-wins
merge per bundled collection keyed by natural id, returning the merge
report; the locally recorded version is not touched here (the caller
records it, §4.5). -/
def importArchive (st : LocalState) (ar : ConfigArchive) : MergeReport × LocalState :=
  ({ profiles := mergeCounts st.profiles ar.profiles
     skills := mergeCounts st.skills ar.skills
     mcp_servers := mergeCounts st.mcp_servers ar.mcp_servers },
   { st with
     profiles := mergeColl st.profiles ar.profiles
     skills := mergeColl st.skills ar.skills
     mcp_servers := mergeColl st.mcp_servers ar.mcp_servers })

end ConfigPackager

/-- Whether an archive version is strictly newer than the locally recorded
one; with no recorded version any archive qualifies (§4.5 sync, §8 scenario
B: a fresh store accepts the first archive). -/
def semverNewer (v : Semver) : Option Semver → Bool
  | none => true
  | some w => Semver.lt w v

/-- Outcome of applying a downloaded archive during sync: applied with a
merge report and the recorded version, or an explicit no-op (§4.5, §7:
nothing-to-do is an expected outcome, not an error). -/
inductive SyncOutcome
  | applied (report : MergeReport) (version : Semver)
  | noop
deriving DecidableEq, Repr

namespace Deploy

/-- Modelled from the spec: the merge step of `Deploy::sync`
(core/README.md line 83; implementation not under the available sources),
after the highest-versioned archive has fully downloaded (§4.5): if its
version is strictly greater than the locally recorded version, import it
and record the new version; otherwise a no-op that leaves local state
untouched. -/
def applyArchive (st : LocalState) (ar : ConfigArchive) : SyncOutcome × LocalState :=
  if semverNewer ar.version st.last_synced_version then
    (SyncOutcome.applied (ConfigPackager.importArchive st ar).1 ar.version,
     { (ConfigPackager.importArchive st ar).2 with last_synced_version := some ar.version })
  else (SyncOutcome.noop, st)

end Deploy

/-- Duration of one operator session window in seconds (cli/README.md
Auto-Sync: the marker expires after one hour). -/
def sessionWindow : Nat := 3600

/-- Modelled from the spec: the SessionSyncGate marker (§4.6;
cli/src/commands/auto_sync.rs is not under the available sources, its
behaviour is documented in cli/README.md lines 88-113): the time the
session marker was created, if present. -/
structure SessionSyncGate where
  marker : Option Nat
deriving DecidableEq, Repr

namespace SessionSyncGate

/-- Modelled from the spec: `shouldSync(now)` (§4.6, cli/README.md): true
iff the marker is absent or the recorded sync is no longer within the
current session window (the marker is at least one window old). -/
def shouldSync (g : SessionSyncGate) (now : Nat) : Bool :=
  match g.marker with
  | none => true
  | some t => decide (t + sessionWindow ≤ now)

/-- Modelled from the spec: `recordSync(now)` (§4.6, cli/README.md: create
the marker file) — persists the marker at the given time. -/
def recordSync (_ : SessionSyncGate) (now : Nat) : SessionSyncGate :=
  { marker := some now }

end SessionSyncGate

/-- Skill-assignment toggle of the profile editor, from
gui/src/pages/Profiles.tsx lines 211-221: copy the previous set, delete the
id when present, add it when absent.  The JavaScript Set of skill ids is
embedded as a finite set of strings. -/
def toggleSkillAssignment (prev : Finset String) (skillId : String) : Finset String :=
  if skillId ∈ prev then prev.erase skillId else insert skillId prev

/-- Discriminator of an MCP sync source, from gui/src/types.ts lines
150-153. -/
inductive McpSyncSourceType
  | url
  | file
deriving DecidableEq, Repr

/-- MCP sync source, from the TypeScript declaration in gui/src/types.ts
lines 150-153. -/
structure McpSyncSource where
  type : McpSyncSourceType
  value : String
deriving DecidableEq, Repr

/-- Argument object passed to the sync_mcp_config Tauri command by
gui/src/api.ts lines 155-160. -/
structure SyncMcpConfigArgs where
  url : Option String
  filePath : Option String
deriving DecidableEq, Repr

namespace api

/-- From gui/src/api.ts lines 155-160: `syncMcpConfig(source)` invokes the
sync_mcp_config command with url set exactly for a url source and filePath
set exactly for a file source; the model returns the invoked command name
and its argument object. -/
def syncMcpConfig (source : McpSyncSource) : String × SyncMcpConfigArgs :=
  ("sync_mcp_config",
   { url := if source.type = McpSyncSourceType.url then some source.value else none
     filePath := if source.type = McpSyncSourceType.file then some source.value else none })

end api

instance : Inhabited Target :=
  ⟨emptyTarget⟩

instance : Inhabited Profiles.UpdateOutcome :=
  ⟨{ target := emptyTarget, written := [], drifted := [], deleted := [],
     manifest_written := false, events := [] }⟩

/-- A registry backed by a finite association list of skills. -/
def regOf (l : List (String × SkillMeta)) : SkillRegistry :=
  fun sid => Profiles.lookupAssoc l sid

/-- A sample skill used by concrete witnesses. -/
def sampleSkill (sid : String) : SkillMeta :=
  { id := sid
    name := sid
    description := "sample skill"
    category := "frontend"
    enabled := true
    content := "# " ++ sid }

/-- The conventional main user profile, for concrete witnesses. -/
def mainProfile : Profile :=
  { id := "main"
    name := "Main Profile"
    description := "agency-wide standards"
    profile_type := ProfileType.user
    skills := []
    auto_invoke_rules := []
    instructions := none
    generate_copilot := false
    generate_agents := false
    created_at := "t0"
    updated_at := "t0" }

/-- A sample project profile, for concrete witnesses. -/
def p1Profile : Profile :=
  { id := "p1"
    name := "P1"
    description := "react project"
    profile_type := ProfileType.project
    skills := [("s1")]
    auto_invoke_rules := []
    instructions := none
    generate_copilot := false
    generate_agents := false
    created_at := "t0"
    updated_at := "t0" }

/-- A sample store holding the main user profile and one project profile. -/
def sampleStore : ProfileStoreState :=
  { profiles := [mainProfile, p1Profile], default_user := some ("main") }

/-- Input attempting to create a second user-scope profile. -/
def secondUserInput : CreateProfileInput :=
  { id := "main2"
    name := "Second User"
    description := ""
    profile_type := ProfileType.user
    skills := [] }

/-- A sample local state for the import witness: the main profile is
local-only, p1 exists in both sides, one local skill. -/
def importLocal : LocalState :=
  { profiles := [(("main"), mainProfile), (("p1"), p1Profile)]
    skills := [(("s1"), sampleSkill ("s1"))]
    mcp_servers := []
    last_synced_version := none }

/-- The profile the sample archive carries for p1. -/
def p1Updated : Profile :=
  { p1Profile with description := "react project, updated upstream" }

/-- A sample archive overwriting p1 and adding a new profile. -/
def importArchiveSample : ConfigArchive :=
  { version := { major := 1, minor := 0, patch := 0 }
    changelog := "update p1"
    created_at := "t1"
    profiles := [(("p1"), p1Updated), (("p2"), { p1Profile with id := "p2" })]
    skills := []
    mcp_servers := [] }

/-- Recorded-entry value for one updated file: the previously recorded hash
for a drift-skipped file, the regenerated hash otherwise; factors the
manifest entry of `Profiles.fileEntry` through its hash value. -/
def entryVal (mh : Option Nat) (act : Profiles.FileAction) (c : String) : Option Nat :=
  match act with
  | Profiles.FileAction.skipDrift => mh
  | _ => some (contentHash c)

/-- Registry resolving both sample skills, for concrete runs. -/
def fullReg : SkillRegistry :=
  regOf [(("s1"), sampleSkill ("s1")), (("s2"), sampleSkill ("s2"))]

/-- Registry resolving only skill s1, for concrete runs. -/
def partialReg : SkillRegistry :=
  regOf [(("s1"), sampleSkill ("s1"))]

/-- A project profile referencing two skills, for concrete runs. -/
def twoSkillProfile : Profile :=
  { id := "p1"
    name := "P1"
    description := "react project"
    profile_type := ProfileType.project
    skills := [("s1"), ("s2")]
    auto_invoke_rules :=
      [{ skill_id := "s1", trigger := "Editing .tsx files", description := "React patterns" }]
    instructions := some ("Follow corporate standards.")
    generate_copilot := false
    generate_agents := false
    created_at := "t0"
    updated_at := "t0" }

/-- The target produced by installing the sample profile. -/
def installedTargetSample : Target :=
  (Profiles.install twoSkillProfile fullReg ("/proj") emptyTarget).2

/-- The sample profile after an upstream edit of its instructions. -/
def editedProfile : Profile :=
  { twoSkillProfile with
    instructions := some ("New corporate standards.")
    updated_at := "t1" }

/-- The Update outcome of running the edited profile over the installed
sample target. -/
def editedOutcome : Profiles.UpdateOutcome :=
  (Profiles.update_installed editedProfile fullReg false installedTargetSample).getD default

/-- The installed sample target with a hand-edited primary file. -/
def driftedTarget : Target :=
  { installedTargetSample with
    fs := setFile installedTargetSample.fs GenPath.primary ("edited by hand") }

/-- Update outcome over the drifted target, without force. -/
def driftedOutcome : Profiles.UpdateOutcome :=
  (Profiles.update_installed twoSkillProfile fullReg false driftedTarget).getD default

/-- Update outcome over the drifted target, with force. -/
def driftedOutcomeForce : Profiles.UpdateOutcome :=
  (Profiles.update_installed twoSkillProfile fullReg true driftedTarget).getD default

/-- First Update outcome over the freshly installed sample target. -/
def firstUpdateOutcome : Profiles.UpdateOutcome :=
  (Profiles.update_installed twoSkillProfile fullReg false installedTargetSample).getD default

/-- Second Update outcome, run over the result of the first. -/
def secondUpdateOutcome : Profiles.UpdateOutcome :=
  (Profiles.update_installed twoSkillProfile fullReg false firstUpdateOutcome.target).getD default

/-!  Theorems settling the claims, one per claim, with concrete witnesses. -/

/-- Applying appended event lists composes. -/
theorem applyEvents_append (t : Target) (a b : List WriteEvent) :
    applyEvents t (a ++ b) = applyEvents (applyEvents t a) b :=
  List.foldl_append _ _ _ _

/-- Applying a list of content writes updates exactly the file map. -/
theorem applyEvents_contents (ws : List (GenPath × String)) (t : Target) :
    applyEvents t (ws.map (fun f => WriteEvent.content f.1 f.2)) =
      { t with fs := writeAll t.fs ws } := by
  induction ws generalizing t with
  | nil => rfl
  | cons f rest ih => exact ih { t with fs := setFile t.fs f.1 f.2 }

/-- Applying a list of removals updates exactly the file map. -/
theorem applyEvents_removes (ds : List GenPath) (t : Target) :
    applyEvents t (ds.map WriteEvent.remove) = { t with fs := removeAll t.fs ds } := by
  induction ds generalizing t with
  | nil => rfl
  | cons d rest ih => exact ih { t with fs := removeFile t.fs d }

/-- A run containing no manifest write leaves the manifest untouched. -/
theorem applyEvents_manifest_nochange (evs : List WriteEvent) (t : Target)
    (h : ∀ e ∈ evs, isManifestWrite e = false) :
    (applyEvents t evs).manifest = t.manifest := by
  induction evs generalizing t with
  | nil => rfl
  | cons e rest ih =>
    have hrest := fun x hx => h x (List.mem_cons_of_mem e hx)
    cases e with
    | content q c => exact (ih { t with fs := setFile t.fs q c } hrest).trans rfl
    | remove q => exact (ih { t with fs := removeFile t.fs q } hrest).trans rfl
    | manifest m => exact absurd (h _ (List.mem_cons_self _ _)) (by simp [isManifestWrite])

/-- Writing files whose paths all avoid a path leaves that path alone. -/
theorem writeAll_notmem (fs : FS) (ws : List (GenPath × String)) (q : GenPath)
    (h : ∀ f ∈ ws, f.1 ≠ q) : writeAll fs ws q = fs q := by
  induction ws generalizing fs with
  | nil => rfl
  | cons f rest ih =>
    have hq : f.1 ≠ q := h f (List.mem_cons_self f rest)
    have := ih (setFile fs f.1 f.2) (fun g hg => h g (List.mem_cons_of_mem f hg))
    rw [show writeAll fs (f :: rest) = writeAll (setFile fs f.1 f.2) rest from rfl, this]
    simp only [setFile]
    rw [if_neg (fun hqf => hq hqf.symm)]

/-- Writing a list of files with distinct paths records each file. -/
theorem writeAll_mem (fs : FS) (ws : List (GenPath × String)) (q : GenPath) (c : String)
    (hnd : (ws.map (fun f => f.1)).Nodup) (hm : (q, c) ∈ ws) :
    writeAll fs ws q = some c := by
  induction ws generalizing fs with
  | nil => cases hm
  | cons f rest ih =>
    simp only [List.map_cons, List.nodup_cons] at hnd
    rcases List.mem_cons.mp hm with heq | hmem
    · cases heq
      have hno : ∀ g ∈ rest, g.1 ≠ q := fun g hg hgq =>
        hnd.1 (List.mem_map.mpr ⟨g, hg, hgq⟩)
      rw [show writeAll fs ((q, c) :: rest) = writeAll (setFile fs q c) rest from rfl,
        writeAll_notmem _ _ _ hno]
      simp [setFile]
    · exact ih (setFile fs f.1 f.2) hnd.2 hmem

/-- Removing paths that avoid a path leaves that path alone. -/
theorem removeAll_notmem (fs : FS) (ds : List GenPath) (q : GenPath) (h : q ∉ ds) :
    removeAll fs ds q = fs q := by
  induction ds generalizing fs with
  | nil => rfl
  | cons d rest ih =>
    have hq : q ≠ d := fun hqd => h (hqd ▸ List.mem_cons_self d rest)
    have := ih (removeFile fs d) (fun hmem => h (List.mem_cons_of_mem d hmem))
    rw [show removeAll fs (d :: rest) = removeAll (removeFile fs d) rest from rfl, this]
    simp [removeFile, hq]

/-- In a list with distinct keys, entries sharing a key are equal. -/
theorem eq_of_mem_keysNodup {α β : Type} (l : List (α × β))
    (hnd : (l.map (fun f => f.1)).Nodup) (a b : α × β)
    (ha : a ∈ l) (hb : b ∈ l) (hk : a.1 = b.1) : a = b := by
  induction l with
  | nil => cases ha
  | cons x t ih =>
    simp only [List.map_cons, List.nodup_cons] at hnd
    rcases List.mem_cons.mp ha with rfl | ha2
    · rcases List.mem_cons.mp hb with rfl | hb2
      · rfl
      · exact absurd (List.mem_map.mpr ⟨b, hb2, hk.symm⟩) hnd.1
    · rcases List.mem_cons.mp hb with rfl | hb2
      · exact absurd (List.mem_map.mpr ⟨a, ha2, hk⟩) hnd.1
      · exact ih hnd.2 ha2 hb2

/-- The generated file set of a profile with distinct skill ids has
distinct paths. -/
theorem genFiles_paths_nodup (p : Profile) (reg : SkillRegistry) (h : p.skills.Nodup) :
    ((genFiles p reg).map (fun f => f.1)).Nodup := by
  have hres : (resolvedIds p reg).Nodup := h.filter _
  have hskills : ((resolvedIds p reg).map GenPath.skill).Nodup :=
    hres.map (fun a b hab => by injection hab)
  have hskills2 : (List.map ((fun (f : GenPath × String) => f.1) ∘
      fun sid => (GenPath.skill sid, skillBody reg sid)) (resolvedIds p reg)).Nodup :=
    hskills
  have hskills3 : ((resolvedIds p reg).map
      (fun sid => GenPath.skill sid)).Nodup := hskills
  unfold genFiles
  rcases p.generate_copilot <;> rcases p.generate_agents <;>
    simp [List.nodup_cons, List.nodup_append, List.mem_map, List.mem_append,
      Function.comp, hskills, hskills2, hskills3]

/-- Inversion: Update keeps a file only when the disk matches the recorded
hash and the regenerated content matches it too. -/
theorem fileAction_eq_keep {force : Bool} {mh : Option Nat} {dk : Option String} {c : String}
    (h : Profiles.fileAction force mh dk c = Profiles.FileAction.keep) :
    ∃ d h0, dk = some d ∧ mh = some h0 ∧ contentHash d = h0 ∧ contentHash c = h0 := by
  rcases dk with _ | d
  · simp [Profiles.fileAction] at h
  · rcases mh with _ | h0
    · rcases force <;> simp [Profiles.fileAction] at h
    · by_cases hd : contentHash d = h0
      · by_cases hc : contentHash c = h0
        · exact ⟨d, h0, rfl, rfl, hd, hc⟩
        · simp [Profiles.fileAction, hd, hc] at h
      · rcases force <;> simp [Profiles.fileAction, hd] at h

/-- Inversion: Update skips a file as drifted only without force, for an
existing file that the manifest did not create or whose disk hash differs
from the recorded hash. -/
theorem fileAction_eq_skipDrift {force : Bool} {mh : Option Nat} {dk : Option String}
    {c : String}
    (h : Profiles.fileAction force mh dk c = Profiles.FileAction.skipDrift) :
    force = false ∧ ∃ d, dk = some d ∧
      ((∃ h0, mh = some h0 ∧ contentHash d ≠ h0) ∨ mh = none) := by
  rcases dk with _ | d
  · simp [Profiles.fileAction] at h
  · rcases mh with _ | h0
    · rcases force with _ | _
      · exact ⟨rfl, d, rfl, Or.inr rfl⟩
      · simp [Profiles.fileAction] at h
    · by_cases hd : contentHash d = h0
      · by_cases hc : contentHash c = h0 <;> simp [Profiles.fileAction, hd, hc] at h
      · rcases force with _ | _
        · exact ⟨rfl, d, rfl, Or.inl ⟨h0, rfl, hd⟩⟩
        · simp [Profiles.fileAction, hd] at h

/-- The manifest entry of one updated file, through its hash value. -/
theorem fileEntry_eq (man : InstalledManifest) (a : Profiles.FileAction)
    (f : GenPath × String) :
    Profiles.fileEntry man a f =
      (entryVal (Profiles.manifestHash man f.1) a f.2).map (fun h => (f.1, h)) := by
  cases a <;> rfl

/-- Stability of the per-file Update decision: re-deciding a file against
the state and manifest entry its first decision produced never writes, and
records the same entry again.  This is the per-file heart of Update
idempotence. -/
theorem fileAction_stable (force : Bool) (mh : Option Nat) (dk : Option String) (c : String) :
    Profiles.fileAction force
        (entryVal mh (Profiles.fileAction force mh dk c) c)
        (if Profiles.fileAction force mh dk c = Profiles.FileAction.write then some c else dk)
        c ≠ Profiles.FileAction.write ∧
    entryVal (entryVal mh (Profiles.fileAction force mh dk c) c)
        (Profiles.fileAction force
          (entryVal mh (Profiles.fileAction force mh dk c) c)
          (if Profiles.fileAction force mh dk c = Profiles.FileAction.write then some c else dk)
          c)
        c =
      entryVal mh (Profiles.fileAction force mh dk c) c := by
  rcases dk with _ | d
  · simp [Profiles.fileAction, entryVal]
  · rcases mh with _ | h0
    · rcases force <;> simp [Profiles.fileAction, entryVal]
    · by_cases hd : contentHash d = h0
      · by_cases hc : contentHash c = h0 <;>
          simp [Profiles.fileAction, entryVal, hd, hc]
      · rcases force <;> simp [Profiles.fileAction, entryVal, hd]

/-- A no-op Update changed nothing: no writes, no stale files, and the
recorded manifest equals the loaded one. -/
theorem updChanged_false (p : Profile) (reg : SkillRegistry) (force : Bool) (t : Target)
    (man : InstalledManifest)
    (h : Profiles.updChanged p reg force t man = false) :
    Profiles.updWrites p reg force t man = [] ∧ Profiles.updStale p reg man = [] ∧
      Profiles.updManifest p reg force t man = man := by
  simpa [Profiles.updChanged, decide_eq_false_iff_not, not_not] using h

/-- The file map an Update run leaves behind: all decided writes applied,
then all stale paths removed. -/
theorem updTarget_fs (p : Profile) (reg : SkillRegistry) (force : Bool) (t : Target)
    (man : InstalledManifest) :
    (applyEvents t (Profiles.updEvents p reg force t man)).fs =
      removeAll (writeAll t.fs (Profiles.updWrites p reg force t man))
        (Profiles.updStale p reg man) := by
  unfold Profiles.updEvents
  rw [applyEvents_append, applyEvents_append, applyEvents_contents, applyEvents_removes]
  by_cases hch : Profiles.updChanged p reg force t man = true <;>
    simp [hch, applyEvents, applyEvent]

/-- The manifest an Update run leaves behind is exactly the one it
records (a no-op run leaves the loaded manifest, which then coincides). -/
theorem updTarget_manifest (p : Profile) (reg : SkillRegistry) (force : Bool) (t : Target)
    (man : InstalledManifest) (ht : t.manifest = some man) :
    (applyEvents t (Profiles.updEvents p reg force t man)).manifest =
      some (Profiles.updManifest p reg force t man) := by
  unfold Profiles.updEvents
  rw [applyEvents_append, applyEvents_append, applyEvents_contents, applyEvents_removes]
  by_cases hch : Profiles.updChanged p reg force t man = true
  · simp [hch, applyEvents, applyEvent]
  · rw [Bool.not_eq_true] at hch
    have hparts := updChanged_false p reg force t man hch
    simp [hch, applyEvents, ht, hparts.2.2]

/-- Claim C8: shouldSync is true iff the gate marker is absent or the
recorded sync is outside the current session window; after recordSync(now),
calls within the window return false and the first call at or after window
expiry returns true again. -/
theorem sessionSyncGate_window_spec (g : SessionSyncGate) (now t : Nat) :
    (SessionSyncGate.shouldSync g now = true ↔
      (g.marker = none ∨ ∃ t0, g.marker = some t0 ∧ t0 + sessionWindow ≤ now)) ∧
    (t < now + sessionWindow →
      SessionSyncGate.shouldSync (SessionSyncGate.recordSync g now) t = false) ∧
    (now + sessionWindow ≤ t →
      SessionSyncGate.shouldSync (SessionSyncGate.recordSync g now) t = true) := by
  refine ⟨?_, ?_, ?_⟩
  · cases hm : g.marker with
    | none => simp [SessionSyncGate.shouldSync, hm]
    | some t0 =>
      simp only [SessionSyncGate.shouldSync, hm, decide_eq_true_eq]
      constructor
      · intro h
        exact Or.inr ⟨t0, rfl, h⟩
      · intro h
        rcases h with h | ⟨t1, ht1, h⟩
        · exact absurd h (by simp)
        · cases ht1
          exact h
  · intro h
    simp only [SessionSyncGate.shouldSync, SessionSyncGate.recordSync,
      decide_eq_false_iff_not]
    omega
  · intro h
    simp only [SessionSyncGate.shouldSync, SessionSyncGate.recordSync,
      decide_eq_true_eq]
    exact h

/-- Concrete run of the session-gate claim: a fresh gate triggers, a
recorded sync suppresses the gate inside the window, and the gate
re-triggers once the window has expired. -/
theorem sessionSyncGate_window_spec_witness :
    SessionSyncGate.shouldSync { marker := none } 5 = true ∧
    SessionSyncGate.shouldSync (SessionSyncGate.recordSync { marker := none } 5) 100 = false ∧
    SessionSyncGate.shouldSync (SessionSyncGate.recordSync { marker := none } 5) 4000 = true :=
  ⟨(sessionSyncGate_window_spec { marker := none } 5 100).1.mpr (Or.inl rfl),
   (sessionSyncGate_window_spec { marker := none } 5 100).2.1 (by decide),
   (sessionSyncGate_window_spec { marker := none } 5 4000).2.2 (by decide)⟩

/-- Claim C9: toggleSkillAssignment toggles exactly the given id, leaves
every other id unchanged, and is an involution. -/
theorem toggleSkillAssignment_spec (s : Finset String) (a b : String) (hb : b ≠ a) :
    (a ∈ toggleSkillAssignment s a ↔ a ∉ s) ∧
    (b ∈ toggleSkillAssignment s a ↔ b ∈ s) ∧
    toggleSkillAssignment (toggleSkillAssignment s a) a = s := by
  by_cases h : a ∈ s
  · refine ⟨by simp [toggleSkillAssignment, h], ?_, ?_⟩
    · simp [toggleSkillAssignment, h, Finset.mem_erase, hb]
    · simp [toggleSkillAssignment, h, Finset.mem_erase, Finset.insert_erase h]
  · refine ⟨by simp [toggleSkillAssignment, h], ?_, ?_⟩
    · simp [toggleSkillAssignment, h, Finset.mem_insert, hb]
    · simp [toggleSkillAssignment, h, Finset.mem_insert, Finset.erase_insert h]

/-- Concrete run of the toggle claim on the set containing only skill x:
toggling y adds it, x stays, and toggling twice restores the set. -/
theorem toggleSkillAssignment_spec_witness :
    (("x" : String) ≠ "y") ∧
    ((("y" : String) ∈ toggleSkillAssignment {"x"} "y" ↔ ("y" : String) ∉ ({"x"} : Finset String)) ∧
     (("x" : String) ∈ toggleSkillAssignment {"x"} "y" ↔ ("x" : String) ∈ ({"x"} : Finset String)) ∧
     toggleSkillAssignment (toggleSkillAssignment {"x"} "y") "y" = ({"x"} : Finset String)) :=
  ⟨by decide, toggleSkillAssignment_spec {"x"} "y" "x" (by decide)⟩

/-- Counting user-scope profiles distributes over append. -/
theorem userCount_append (l1 l2 : List Profile) :
    userCount (l1 ++ l2) = userCount l1 + userCount l2 :=
  List.countP_append _ _ _

/-- Unfolding lemma for the user-scope count of a cons cell. -/
theorem userCount_cons (q : Profile) (t : List Profile) :
    userCount (q :: t) = userCount t + (if isUserProfile q then 1 else 0) :=
  List.countP_cons _ _ _

/-- Replacing a record without changing its user-scope status preserves the
user-scope count. -/
theorem userCount_replaceFirst_congr (id : String) (f : Profile → Profile)
    (hf : ∀ q, isUserProfile (f q) = isUserProfile q) (ps : List Profile) :
    userCount (ProfileStore.replaceFirst id f ps) = userCount ps := by
  induction ps with
  | nil => rfl
  | cons q t ih =>
    by_cases h : q.id = id
    · simp only [ProfileStore.replaceFirst, if_pos h, userCount_cons, hf q]
    · simp only [ProfileStore.replaceFirst, if_neg h, userCount_cons, ih]

/-- Replacing a record with a non-user-scope record never increases the
user-scope count. -/
theorem userCount_replaceFirst_le (id : String) (f : Profile → Profile)
    (hf : ∀ q, isUserProfile (f q) = false) (ps : List Profile) :
    userCount (ProfileStore.replaceFirst id f ps) ≤ userCount ps := by
  induction ps with
  | nil => exact Nat.le_refl _
  | cons q t ih =>
    by_cases h : q.id = id
    · simp only [ProfileStore.replaceFirst, if_pos h, userCount_cons]
      have hx : (if isUserProfile (f q) = true then 1 else 0) = 0 := by
        simp [hf q]
      rw [hx]
      split <;> omega
    · simp only [ProfileStore.replaceFirst, if_neg h, userCount_cons]
      exact Nat.add_le_add_right ih _

/-- If every user-scope record carries the replaced id and the ids are
unique, replacing the first record with that id leaves at most one
user-scope record. -/
theorem userCount_replaceFirst_single (id : String) (f : Profile → Profile) (ps : List Profile)
    (hnd : (ps.map Profile.id).Nodup)
    (hall : ∀ q ∈ ps, isUserProfile q = true → q.id = id) :
    userCount (ProfileStore.replaceFirst id f ps) ≤ 1 := by
  induction ps with
  | nil => exact Nat.zero_le _
  | cons q t ih =>
    simp only [List.map_cons, List.nodup_cons] at hnd
    by_cases h : q.id = id
    · have ht0 : userCount t = 0 := by
        refine List.countP_eq_zero.mpr ?_
        intro r hr hru
        have hrid : r.id = id := hall r (List.mem_cons_of_mem q hr) hru
        exact hnd.1 (List.mem_map.mpr ⟨r, hr, by rw [hrid, h]⟩)
      simp only [ProfileStore.replaceFirst, if_pos h, userCount_cons]
      rw [ht0]
      split <;> omega
    · have hqu : isUserProfile q = false := by
        by_contra hq
        rw [Bool.not_eq_false] at hq
        exact h (hall q (List.mem_cons_self q t) hq)
      have hle := ih hnd.2 (fun r hr hru => hall r (List.mem_cons_of_mem q hr) hru)
      simp only [ProfileStore.replaceFirst, if_neg h, userCount_cons]
      have hx : (if isUserProfile q = true then 1 else 0) = 0 := by
        simp [hqu]
      rw [hx]
      omega

/-- Removing the first record with an id yields a sublist of the store. -/
theorem removeFirst_sublist (id : String) (ps : List Profile) :
    List.Sublist (ProfileStore.removeFirst id ps) ps := by
  induction ps with
  | nil => simp [ProfileStore.removeFirst]
  | cons q t ih =>
    by_cases h : q.id = id
    · simp only [ProfileStore.removeFirst, if_pos h]
      exact (List.Sublist.refl t).cons q
    · simp only [ProfileStore.removeFirst, if_neg h]
      exact ih.cons₂ q

/-- Claim C6: at most one user-scope profile at any time — creating a
second user-scope profile fails with a validation error before any
mutation leaving the store untouched, and every ProfileStore operation
preserves the at-most-one-user invariant (id uniqueness, the store's other
§4.1 invariant, is assumed for partial updates). -/
theorem profileStore_single_user (st : ProfileStoreState)
    (hinv : userCount st.profiles ≤ 1) :
    (∀ input now, validProfileId input.id = true →
      st.profiles.any (fun q => decide (q.id = input.id)) = false →
      input.profile_type = ProfileType.user →
      st.profiles.any isUserProfile = true →
      (ProfileStore.create st input now).1 = st ∧
      (ProfileStore.create st input now).2 = Except.error StoreError.UserProfileExists) ∧
    (∀ input now, userCount (ProfileStore.create st input now).1.profiles ≤ 1) ∧
    (∀ id u now, (st.profiles.map Profile.id).Nodup →
      userCount (ProfileStore.update st id u now).1.profiles ≤ 1) ∧
    (∀ id, userCount (ProfileStore.delete st id).1.profiles ≤ 1) ∧
    (∀ id, userCount (ProfileStore.setDefaultUser st id).1.profiles ≤ 1) := by
  refine ⟨?_, ?_, ?_, ?_, ?_⟩
  · intro input now hv hdup hu hexist
    constructor <;>
      simp [ProfileStore.create, hv, hdup, hu, hexist]
  · intro input now
    unfold ProfileStore.create
    split_ifs with h1 h2 h3
    · exact hinv
    · exact hinv
    · exact hinv
    · simp only
      rw [userCount_append]
      by_cases hty : input.profile_type = ProfileType.user
      · have hnone : st.profiles.any isUserProfile = false := by
          rcases hb : st.profiles.any isUserProfile with _ | _
          · rfl
          · exact absurd ⟨hty, hb⟩ h3
        have h0 : userCount st.profiles = 0 := by
          refine List.countP_eq_zero.mpr ?_
          intro r hr
          have := List.any_eq_false.mp hnone r hr
          simpa using this
        have hone : userCount [newProfile input now] ≤ 1 := by
          simp only [userCount, List.countP_cons, List.countP_nil]
          split <;> omega
        omega
      · have hzero : userCount [newProfile input now] = 0 := by
          simp only [userCount, List.countP_cons, List.countP_nil]
          have : isUserProfile (newProfile input now) = false := by
            simp [isUserProfile, newProfile, hty]
          simp [this]
        omega
  · intro id u now hnd
    unfold ProfileStore.update
    split_ifs with h1 h2
    · exact hinv
    · exact hinv
    · simp only
      rcases hu : u.profile_type with _ | ty
      · rw [userCount_replaceFirst_congr id _ (fun q => by
          simp [ProfileStore.applyUpdate, isUserProfile, hu]) st.profiles]
        exact hinv
      · cases ty with
        | project =>
          refine le_trans (userCount_replaceFirst_le id _ (fun q => by
            simp [ProfileStore.applyUpdate, isUserProfile, hu]) st.profiles) hinv
        | user =>
          refine userCount_replaceFirst_single id _ st.profiles hnd ?_
          intro q hq hqu
          by_contra hne
          have hany : st.profiles.any (fun q => isUserProfile q && decide (q.id ≠ id)) = true :=
            List.any_eq_true.mpr ⟨q, hq, by simp [hqu, hne]⟩
          exact h2 ⟨hu, hany⟩
  · intro id
    rcases hfind : st.profiles.find? (fun q => decide (q.id = id)) with _ | q
    · simp only [ProfileStore.delete, hfind]
      exact hinv
    · simp only [ProfileStore.delete, hfind]
      split_ifs with hprot
      · exact hinv
      · exact le_trans ((removeFirst_sublist id st.profiles).countP_le isUserProfile) hinv
  · intro id
    rcases hfind : st.profiles.find? (fun q => decide (q.id = id)) with _ | q
    · simp only [ProfileStore.setDefaultUser, hfind]
      exact hinv
    · simp only [ProfileStore.setDefaultUser, hfind]
      split_ifs with hws
      · exact hinv
      · exact hinv


/-- Concrete run of the single-user-profile claim: creating a second
user-scope profile in the sample store fails with UserProfileExists and
leaves the store untouched, and delete/update keep at most one user
profile. -/
theorem profileStore_single_user_witness :
    (ProfileStore.create sampleStore secondUserInput "t1").1 = sampleStore ∧
    (ProfileStore.create sampleStore secondUserInput "t1").2 =
      Except.error StoreError.UserProfileExists ∧
    userCount (ProfileStore.delete sampleStore "p1").1.profiles ≤ 1 ∧
    userCount (ProfileStore.update sampleStore "p1"
      { name := some ("P1 renamed"), description := none, profile_type := none } "t1").1.profiles ≤ 1 := by
  have h := profileStore_single_user sampleStore (by decide)
  exact ⟨(h.1 secondUserInput "t1" (by decide) (by decide) rfl (by decide)).1,
    (h.1 secondUserInput "t1" (by decide) (by decide) rfl (by decide)).2,
    h.2.2.2.1 "p1",
    h.2.2.1 "p1" { name := some ("P1 renamed"), description := none, profile_type := none } "t1"
      (by decide)⟩

/-- A version is never strictly newer than itself. -/
theorem Semver.lt_irrefl (v : Semver) : Semver.lt v v = false := by
  simp [Semver.lt]

/-- Claim C5: sync applies an archive iff its version is strictly greater
than the locally recorded version; then it imports the archive (merging
every bundled collection) and records the new version; otherwise it is an
explicit no-op leaving local state and the recorded version unchanged, and
an archive matching the recorded version is such a no-op. -/
theorem sync_applies_iff_newer (st : LocalState) (ar : ConfigArchive) :
    ((Deploy.applyArchive st ar).1 ≠ SyncOutcome.noop ↔
      semverNewer ar.version st.last_synced_version = true) ∧
    (semverNewer ar.version st.last_synced_version = true →
      (Deploy.applyArchive st ar).1 =
        SyncOutcome.applied (ConfigPackager.importArchive st ar).1 ar.version ∧
      (Deploy.applyArchive st ar).2.last_synced_version = some ar.version ∧
      (Deploy.applyArchive st ar).2.profiles = mergeColl st.profiles ar.profiles ∧
      (Deploy.applyArchive st ar).2.skills = mergeColl st.skills ar.skills ∧
      (Deploy.applyArchive st ar).2.mcp_servers = mergeColl st.mcp_servers ar.mcp_servers) ∧
    (semverNewer ar.version st.last_synced_version = false →
      (Deploy.applyArchive st ar).1 = SyncOutcome.noop ∧
      (Deploy.applyArchive st ar).2 = st) ∧
    (st.last_synced_version = some ar.version →
      (Deploy.applyArchive st ar).1 = SyncOutcome.noop ∧
      (Deploy.applyArchive st ar).2 = st) := by
  by_cases h : semverNewer ar.version st.last_synced_version = true
  · refine ⟨by simp [Deploy.applyArchive, h], ?_, ?_, ?_⟩
    · intro _
      simp [Deploy.applyArchive, h, ConfigPackager.importArchive]
    · intro hf
      rw [h] at hf
      cases hf
    · intro heq
      rw [heq] at h
      simp [semverNewer, Semver.lt_irrefl] at h
  · rw [Bool.not_eq_true] at h
    refine ⟨by simp [Deploy.applyArchive, h], ?_, ?_, ?_⟩
    · intro ht
      rw [ht] at h
      cases h
    · intro _
      simp [Deploy.applyArchive, h]
    · intro _
      simp [Deploy.applyArchive, h]

/-- Concrete run of the sync version gate (spec §8 merge monotonicity):
with 1.1.0 recorded, a 1.0.0 archive is a no-op leaving the state
untouched, and a 1.2.0 archive is applied and records 1.2.0. -/
theorem sync_applies_iff_newer_witness :
    ((Deploy.applyArchive
        { profiles := [], skills := [], mcp_servers := [],
          last_synced_version := some { major := 1, minor := 1, patch := 0 } }
        { version := { major := 1, minor := 0, patch := 0 }, changelog := "old",
          created_at := "t0", profiles := [], skills := [], mcp_servers := [] }).1 =
      SyncOutcome.noop ∧
     (Deploy.applyArchive
        { profiles := [], skills := [], mcp_servers := [],
          last_synced_version := some { major := 1, minor := 1, patch := 0 } }
        { version := { major := 1, minor := 0, patch := 0 }, changelog := "old",
          created_at := "t0", profiles := [], skills := [], mcp_servers := [] }).2 =
      { profiles := [], skills := [], mcp_servers := [],
        last_synced_version := some { major := 1, minor := 1, patch := 0 } }) ∧
    (Deploy.applyArchive
        { profiles := [], skills := [], mcp_servers := [],
          last_synced_version := some { major := 1, minor := 1, patch := 0 } }
        { version := { major := 1, minor := 2, patch := 0 }, changelog := "new",
          created_at := "t1", profiles := [], skills := [], mcp_servers := [] }).2.last_synced_version =
      some { major := 1, minor := 2, patch := 0 } :=
  ⟨(sync_applies_iff_newer
      { profiles := [], skills := [], mcp_servers := [],
        last_synced_version := some { major := 1, minor := 1, patch := 0 } }
      { version := { major := 1, minor := 0, patch := 0 }, changelog := "old",
        created_at := "t0", profiles := [], skills := [], mcp_servers := [] }).2.2.1 (by decide),
   ((sync_applies_iff_newer
      { profiles := [], skills := [], mcp_servers := [],
        last_synced_version := some { major := 1, minor := 1, patch := 0 } }
      { version := { major := 1, minor := 2, patch := 0 }, changelog := "new",
        created_at := "t1", profiles := [], skills := [], mcp_servers := [] }).2.1 (by decide)).2.1⟩

/-- A key is unbound in an association list iff no entry carries it. -/
theorem lookupAssoc_eq_none_iff {κ α : Type} [DecidableEq κ] (l : List (κ × α)) (k : κ) :
    Profiles.lookupAssoc l k = none ↔ ∀ e ∈ l, e.1 ≠ k := by
  induction l with
  | nil => simp [Profiles.lookupAssoc]
  | cons e t ih =>
    by_cases he : e.1 = k
    · simp [Profiles.lookupAssoc, he]
    · simp [Profiles.lookupAssoc, he, ih]

/-- Lookup in an appended association list tries the first list first. -/
theorem lookupAssoc_append {κ α : Type} [DecidableEq κ] (l1 l2 : List (κ × α)) (k : κ) :
    Profiles.lookupAssoc (l1 ++ l2) k =
      (match Profiles.lookupAssoc l1 k with
       | some v => some v
       | none => Profiles.lookupAssoc l2 k) := by
  induction l1 with
  | nil => rfl
  | cons e t ih =>
    by_cases he : e.1 = k
    · simp [Profiles.lookupAssoc, he]
    · simp [Profiles.lookupAssoc, he, ih]

/-- Lookup in the overwrite half of a merge: each local entry keeps its key
and takes the archive value when the archive binds that key. -/
theorem lookupAssoc_map_merge {α : Type} (ar lcl : List (String × α)) (k : String) :
    Profiles.lookupAssoc (lcl.map (fun e =>
      match Profiles.lookupAssoc ar e.1 with
      | some w => (e.1, w)
      | none => e)) k =
    (Profiles.lookupAssoc lcl k).map (fun v =>
      match Profiles.lookupAssoc ar k with
      | some w => w
      | none => v) := by
  induction lcl with
  | nil => rfl
  | cons e t ih =>
    by_cases he : e.1 = k
    · subst he
      rcases har : Profiles.lookupAssoc ar e.1 with _ | w <;>
        simp [Profiles.lookupAssoc, har]
    · rcases har : Profiles.lookupAssoc ar e.1 with _ | w <;>
        simp [Profiles.lookupAssoc, har, he, ih]

/-- Filtering never hides a key whose entries all satisfy the filter. -/
theorem lookupAssoc_filter_of_keyimp {κ α : Type} [DecidableEq κ]
    (l : List (κ × α)) (g : κ × α → Bool) (k : κ)
    (hg : ∀ a ∈ l, a.1 = k → g a = true) :
    Profiles.lookupAssoc (l.filter g) k = Profiles.lookupAssoc l k := by
  induction l with
  | nil => rfl
  | cons a t ih =>
    have ih2 := ih (fun b hb hbk => hg b (List.mem_cons_of_mem a hb) hbk)
    cases hga : g a with
    | false =>
      have hak : a.1 ≠ k := by
        intro h
        rw [hg a (List.mem_cons_self a t) h] at hga
        cases hga
      simp [List.filter_cons, hga, Profiles.lookupAssoc, hak, ih2]
    | true =>
      simp [List.filter_cons, hga, Profiles.lookupAssoc, ih2]

/-- A local record whose key the archive does not bind survives the merge
unchanged. -/
theorem mergeColl_preserves {α : Type} (lcl ar : List (String × α)) (k : String) (v : α)
    (hl : Profiles.lookupAssoc lcl k = some v)
    (ha : Profiles.lookupAssoc ar k = none) :
    Profiles.lookupAssoc (mergeColl lcl ar) k = some v := by
  unfold mergeColl
  rw [lookupAssoc_append, lookupAssoc_map_merge, hl, ha]
  simp

/-- An archive record overwrites or adds the record with its key. -/
theorem mergeColl_overwrites {α : Type} (lcl ar : List (String × α)) (k : String) (w : α)
    (ha : Profiles.lookupAssoc ar k = some w) :
    Profiles.lookupAssoc (mergeColl lcl ar) k = some w := by
  unfold mergeColl
  rw [lookupAssoc_append, lookupAssoc_map_merge, ha]
  rcases hl : Profiles.lookupAssoc lcl k with _ | v
  · have hnone := (lookupAssoc_eq_none_iff lcl k).mp hl
    have hfilter : Profiles.lookupAssoc
        (ar.filter (fun a => ! lcl.any (fun e => decide (e.1 = a.1)))) k =
        Profiles.lookupAssoc ar k := by
      refine lookupAssoc_filter_of_keyimp ar _ k ?_
      intro a _ hak
      rw [hak]
      simp only [Bool.not_eq_true', List.any_eq_false, decide_eq_true_eq]
      exact hnone
    simp [hfilter, ha]
  · simp

/-- Merging never deletes a locally bound key. -/
theorem mergeColl_keeps {α : Type} (lcl ar : List (String × α)) (k : String)
    (h : (Profiles.lookupAssoc lcl k).isSome = true) :
    (Profiles.lookupAssoc (mergeColl lcl ar) k).isSome = true := by
  rcases ha : Profiles.lookupAssoc ar k with _ | w
  · rcases hl : Profiles.lookupAssoc lcl k with _ | v
    · rw [hl] at h
      cases h
    · rw [mergeColl_preserves lcl ar k v hl ha]
      rfl
  · rw [mergeColl_overwrites lcl ar k w ha]
    rfl

/-- Claim C7: ConfigPackager.import never deletes local records — for each
bundled collection, every local record whose natural id the archive does
not carry is preserved unchanged, archive records overwrite or add records
with matching ids, and every locally bound id stays bound. -/
theorem importArchive_never_deletes (st : LocalState) (ar : ConfigArchive) (k : String) :
    (∀ v, Profiles.lookupAssoc st.profiles k = some v →
      Profiles.lookupAssoc ar.profiles k = none →
      Profiles.lookupAssoc (ConfigPackager.importArchive st ar).2.profiles k = some v) ∧
    (∀ v, Profiles.lookupAssoc st.skills k = some v →
      Profiles.lookupAssoc ar.skills k = none →
      Profiles.lookupAssoc (ConfigPackager.importArchive st ar).2.skills k = some v) ∧
    (∀ v, Profiles.lookupAssoc st.mcp_servers k = some v →
      Profiles.lookupAssoc ar.mcp_servers k = none →
      Profiles.lookupAssoc (ConfigPackager.importArchive st ar).2.mcp_servers k = some v) ∧
    (∀ w, Profiles.lookupAssoc ar.profiles k = some w →
      Profiles.lookupAssoc (ConfigPackager.importArchive st ar).2.profiles k = some w) ∧
    (∀ w, Profiles.lookupAssoc ar.skills k = some w →
      Profiles.lookupAssoc (ConfigPackager.importArchive st ar).2.skills k = some w) ∧
    (∀ w, Profiles.lookupAssoc ar.mcp_servers k = some w →
      Profiles.lookupAssoc (ConfigPackager.importArchive st ar).2.mcp_servers k = some w) ∧
    ((Profiles.lookupAssoc st.profiles k).isSome = true →
      (Profiles.lookupAssoc (ConfigPackager.importArchive st ar).2.profiles k).isSome = true) ∧
    ((Profiles.lookupAssoc st.skills k).isSome = true →
      (Profiles.lookupAssoc (ConfigPackager.importArchive st ar).2.skills k).isSome = true) ∧
    ((Profiles.lookupAssoc st.mcp_servers k).isSome = true →
      (Profiles.lookupAssoc (ConfigPackager.importArchive st ar).2.mcp_servers k).isSome = true) :=
  ⟨fun v hl ha => mergeColl_preserves st.profiles ar.profiles k v hl ha,
   fun v hl ha => mergeColl_preserves st.skills ar.skills k v hl ha,
   fun v hl ha => mergeColl_preserves st.mcp_servers ar.mcp_servers k v hl ha,
   fun w ha => mergeColl_overwrites st.profiles ar.profiles k w ha,
   fun w ha => mergeColl_overwrites st.skills ar.skills k w ha,
   fun w ha => mergeColl_overwrites st.mcp_servers ar.mcp_servers k w ha,
   fun h => mergeColl_keeps st.profiles ar.profiles k h,
   fun h => mergeColl_keeps st.skills ar.skills k h,
   fun h => mergeColl_keeps st.mcp_servers ar.mcp_servers k h⟩


/-- Concrete run of the import frame claim: the local-only main profile is
preserved unchanged, the archive record overwrites p1, the archive-only p2
is added, and the local skill stays bound. -/
theorem importArchive_never_deletes_witness :
    Profiles.lookupAssoc (ConfigPackager.importArchive importLocal importArchiveSample).2.profiles
      "main" = some mainProfile ∧
    Profiles.lookupAssoc (ConfigPackager.importArchive importLocal importArchiveSample).2.profiles
      "p1" = some p1Updated ∧
    Profiles.lookupAssoc (ConfigPackager.importArchive importLocal importArchiveSample).2.profiles
      "p2" = some ({ p1Profile with id := "p2" }) ∧
    (Profiles.lookupAssoc (ConfigPackager.importArchive importLocal importArchiveSample).2.skills
      "s1").isSome = true :=
  ⟨(importArchive_never_deletes importLocal importArchiveSample "main").1 mainProfile
      (by decide) (by decide),
   (importArchive_never_deletes importLocal importArchiveSample "p1").2.2.2.1 p1Updated
      (by decide),
   (importArchive_never_deletes importLocal importArchiveSample "p2").2.2.2.1
      ({ p1Profile with id := "p2" }) (by decide),
   (importArchive_never_deletes importLocal importArchiveSample "s1").2.2.2.2.2.2.2.1
      (by decide)⟩

/-- Claim C10: syncMcpConfig invokes sync_mcp_config with exactly one
non-null location argument — url for a url source, filePath for a file
source, each carrying the source value. -/
theorem syncMcpConfig_one_location (source : McpSyncSource) :
    (api.syncMcpConfig source).1 = "sync_mcp_config" ∧
    ((api.syncMcpConfig source).2.url.isSome ≠ (api.syncMcpConfig source).2.filePath.isSome) ∧
    (source.type = McpSyncSourceType.url →
      (api.syncMcpConfig source).2.url = some source.value ∧
      (api.syncMcpConfig source).2.filePath = none) ∧
    (source.type = McpSyncSourceType.file →
      (api.syncMcpConfig source).2.filePath = some source.value ∧
      (api.syncMcpConfig source).2.url = none) := by
  obtain ⟨ty, v⟩ := source
  cases ty <;> simp [api.syncMcpConfig]

/-- Concrete run of the MCP-sync argument claim for a url source. -/
theorem syncMcpConfig_one_location_witness :
    (api.syncMcpConfig { type := McpSyncSourceType.url, value := "https://x/mcp.json" }).1 =
      "sync_mcp_config" ∧
    ((api.syncMcpConfig { type := McpSyncSourceType.url, value := "https://x/mcp.json" }).2.url.isSome ≠
      (api.syncMcpConfig { type := McpSyncSourceType.url, value := "https://x/mcp.json" }).2.filePath.isSome) ∧
    (api.syncMcpConfig { type := McpSyncSourceType.url, value := "https://x/mcp.json" }).2.url =
      some ("https://x/mcp.json") ∧
    (api.syncMcpConfig { type := McpSyncSourceType.url, value := "https://x/mcp.json" }).2.filePath = none := by
  have h := syncMcpConfig_one_location { type := McpSyncSourceType.url, value := "https://x/mcp.json" }
  exact ⟨h.1, h.2.1, (h.2.2.1 rfl).1, (h.2.2.1 rfl).2⟩

/-- The file map after an Update run, at one generated path: the
regenerated content if the file was decided written, the previous disk
content otherwise. -/
theorem update_fs_at (p : Profile) (reg : SkillRegistry) (force : Bool) (t : Target)
    (man : InstalledManifest)
    (hnd : ((genFiles p reg).map (fun f => f.1)).Nodup)
    (f : GenPath × String) (hf : f ∈ genFiles p reg) :
    (applyEvents t (Profiles.updEvents p reg force t man)).fs f.1 =
      (if Profiles.updAct force man t f = Profiles.FileAction.write then some f.2
       else t.fs f.1) := by
  rw [updTarget_fs]
  have hnot_stale : f.1 ∉ Profiles.updStale p reg man := by
    intro hst
    have hmem := (List.mem_filter.mp hst).2
    rw [Bool.not_eq_true'] at hmem
    exact (List.any_eq_false.mp hmem f hf) (by simp)
  rw [removeAll_notmem _ _ _ hnot_stale]
  by_cases hact : Profiles.updAct force man t f = Profiles.FileAction.write
  · rw [if_pos hact]
    refine writeAll_mem t.fs _ f.1 f.2 ?_ ?_
    · exact List.Nodup.sublist ((List.filter_sublist _).map _) hnd
    · have hmem : f ∈ Profiles.updWrites p reg force t man :=
        List.mem_filter.mpr ⟨hf, by simp [hact]⟩
      exact Prod.mk.eta ▸ hmem
  · rw [if_neg hact]
    refine writeAll_notmem t.fs _ f.1 ?_
    intro g hg hg1
    have hgfiles := (List.mem_filter.mp hg).1
    have hgact : Profiles.updAct force man t g = Profiles.FileAction.write := by
      have := (List.mem_filter.mp hg).2
      simpa using this
    rw [eq_of_mem_keysNodup _ hnd g f hgfiles hf hg1] at hgact
    exact hact hgact

/-- Lookup in a key-preserving filterMap over a list with distinct keys is
decided by the originating entry. -/
theorem lookupAssoc_filterMap_keyed {β : Type} (l : List (GenPath × String))
    (g : (GenPath × String) → Option (GenPath × β))
    (hkey : ∀ x e, g x = some e → e.1 = x.1)
    (hnd : (l.map (fun f => f.1)).Nodup)
    (f : GenPath × String) (hf : f ∈ l) :
    Profiles.lookupAssoc (l.filterMap g) f.1 = (g f).map (fun e => e.2) := by
  induction l with
  | nil => cases hf
  | cons x t ih =>
    simp only [List.map_cons, List.nodup_cons] at hnd
    rcases List.mem_cons.mp hf with rfl | hf2
    · rcases hgx : g f with _ | e
      · rw [List.filterMap_cons_none hgx]
        show Profiles.lookupAssoc (List.filterMap g t) f.1 = none
        refine (lookupAssoc_eq_none_iff _ _).mpr ?_
        intro e2 he2
        obtain ⟨y, hy, hgy⟩ := List.mem_filterMap.mp he2
        rw [hkey y e2 hgy]
        intro hy1
        exact hnd.1 (List.mem_map.mpr ⟨y, hy, hy1⟩)
      · rw [List.filterMap_cons_some hgx]
        have he1 : e.1 = f.1 := hkey f e hgx
        simp [Profiles.lookupAssoc, he1]
    · have hx1 : x.1 ≠ f.1 := fun hxf =>
        hnd.1 (List.mem_map.mpr ⟨f, hf2, hxf.symm⟩)
      rcases hgx : g x with _ | e
      · rw [List.filterMap_cons_none hgx]
        exact ih hnd.2 hf2
      · rw [List.filterMap_cons_some hgx]
        have he1 : e.1 = x.1 := hkey x e hgx
        simp [Profiles.lookupAssoc, he1, hx1, ih hnd.2 hf2]

/-- The hash the recorded Update manifest stores for one generated file. -/
theorem manifestHash_updManifest (p : Profile) (reg : SkillRegistry) (force : Bool)
    (t : Target) (man : InstalledManifest)
    (hnd : ((genFiles p reg).map (fun f => f.1)).Nodup)
    (f : GenPath × String) (hf : f ∈ genFiles p reg) :
    Profiles.manifestHash (Profiles.updManifest p reg force t man) f.1 =
      entryVal (Profiles.manifestHash man f.1) (Profiles.updAct force man t f) f.2 := by
  have hkey : ∀ x e, Profiles.fileEntry man (Profiles.updAct force man t x) x = some e →
      e.1 = x.1 := by
    intro x e hg
    rw [fileEntry_eq] at hg
    obtain ⟨h0, _, he⟩ := Option.map_eq_some'.mp hg
    rw [← he]
  have := lookupAssoc_filterMap_keyed (genFiles p reg)
    (fun x => Profiles.fileEntry man (Profiles.updAct force man t x) x) hkey hnd f hf
  rw [show Profiles.manifestHash (Profiles.updManifest p reg force t man) f.1 =
      Profiles.lookupAssoc ((genFiles p reg).filterMap
        (fun x => Profiles.fileEntry man (Profiles.updAct force man t x) x)) f.1 from rfl,
    this]
  show Option.map (fun e => e.2)
    (Profiles.fileEntry man (Profiles.updAct force man t f) f) = _
  rw [fileEntry_eq]
  rcases entryVal (Profiles.manifestHash man f.1) (Profiles.updAct force man t f) f.2 with _ | h0
  · rfl
  · rfl

/-- Claim C1 (amended): Install with an unresolvable skill id does not
abort — per its declared result type, it installs every resolvable skill,
writes the instruction files and the manifest, reports the unresolvable id
in skills_failed, and leaves it out of skills_installed. -/
theorem install_partial_outcome (p : Profile) (reg : SkillRegistry) (path : String)
    (t : Target) (sid : String)
    (hnd : p.skills.Nodup) (hmem : sid ∈ p.skills) (hunres : reg sid = none) :
    sid ∈ (Profiles.install p reg path t).1.skills_failed.map SkillError.skill_id ∧
    sid ∉ (Profiles.install p reg path t).1.skills_installed ∧
    (Profiles.install p reg path t).2.manifest = some (mkManifest p (genFiles p reg)) ∧
    (Profiles.install p reg path t).2.fs GenPath.primary = some (renderPrimary p reg) ∧
    (∀ sid2, sid2 ∈ p.skills → (reg sid2).isSome = true →
      sid2 ∈ (Profiles.install p reg path t).1.skills_installed ∧
      (Profiles.install p reg path t).2.fs (GenPath.skill sid2) =
        some (skillBody reg sid2)) := by
  have hpaths := genFiles_paths_nodup p reg hnd
  have htarget : (Profiles.install p reg path t).2 =
      { fs := writeAll t.fs (genFiles p reg)
        manifest := some (mkManifest p (genFiles p reg)) } := by
    show applyEvents t (Profiles.installPlan p reg) = _
    unfold Profiles.installPlan
    rw [applyEvents_append, applyEvents_contents]
    rfl
  have hfailed : (Profiles.install p reg path t).1.skills_failed.map SkillError.skill_id =
      unresolvedIds p reg := by
    show ((unresolvedIds p reg).map _).map _ = _
    rw [List.map_map]
    have hcomp : SkillError.skill_id ∘ (fun sid =>
        ({ skill_id := sid, message := "skill not found in registry" } : SkillError)) =
        id := rfl
    rw [hcomp, List.map_id]
  refine ⟨?_, ?_, ?_, ?_, ?_⟩
  · rw [hfailed]
    exact List.mem_filter.mpr ⟨hmem, by simp [hunres]⟩
  · intro hin
    have hsome := (List.mem_filter.mp hin).2
    rw [hunres] at hsome
    cases hsome
  · rw [htarget]
  · rw [htarget]
    refine writeAll_mem t.fs _ _ _ hpaths ?_
    unfold genFiles
    exact List.mem_cons_self _ _
  · intro sid2 hs2 hres2
    have hresolved : sid2 ∈ resolvedIds p reg := List.mem_filter.mpr ⟨hs2, hres2⟩
    refine ⟨hresolved, ?_⟩
    rw [htarget]
    refine writeAll_mem t.fs _ _ _ hpaths ?_
    unfold genFiles
    refine List.mem_cons.mpr (Or.inr ?_)
    have hmapmem : (GenPath.skill sid2, skillBody reg sid2) ∈
        (resolvedIds p reg).map (fun s => (GenPath.skill s, skillBody reg s)) :=
      List.mem_map.mpr ⟨sid2, hresolved, rfl⟩
    simp only [List.mem_append]
    tauto

/-- Concrete run of the amended install claim: with only s1 resolvable, the
sample profile installs s1, reports s2 as failed, and still writes the
manifest and the primary instruction file. -/
theorem install_partial_outcome_witness :
    ("s2" : String) ∈ (Profiles.install twoSkillProfile partialReg ("/proj")
      emptyTarget).1.skills_failed.map SkillError.skill_id ∧
    ("s2" : String) ∉ (Profiles.install twoSkillProfile partialReg ("/proj")
      emptyTarget).1.skills_installed ∧
    (Profiles.install twoSkillProfile partialReg ("/proj") emptyTarget).2.manifest =
      some (mkManifest twoSkillProfile (genFiles twoSkillProfile partialReg)) ∧
    (Profiles.install twoSkillProfile partialReg ("/proj") emptyTarget).2.fs
      GenPath.primary = some (renderPrimary twoSkillProfile partialReg) := by
  have h := install_partial_outcome twoSkillProfile partialReg ("/proj") emptyTarget
    ("s2") (by decide) (by decide) (by decide)
  exact ⟨h.1, h.2.1, h.2.2.1, h.2.2.2.1⟩

/-- Claim C1 counterexample: installing the sample profile with only s1
resolvable neither fails hard nor writes nothing — it writes the primary
file, the s1 skill file and the manifest, and returns a partial outcome
listing s1 installed and s2 failed. -/
theorem install_unresolvable_counterexample :
    (Profiles.install twoSkillProfile partialReg ("/tmp/proj")
      emptyTarget).1.skills_installed = [("s1")] ∧
    (Profiles.install twoSkillProfile partialReg ("/tmp/proj")
      emptyTarget).1.skills_failed.map SkillError.skill_id = [("s2")] ∧
    ((Profiles.install twoSkillProfile partialReg ("/tmp/proj")
      emptyTarget).2.fs GenPath.primary).isSome = true ∧
    ((Profiles.install twoSkillProfile partialReg ("/tmp/proj")
      emptyTarget).2.fs (GenPath.skill ("s1"))).isSome = true ∧
    ((Profiles.install twoSkillProfile partialReg ("/tmp/proj")
      emptyTarget).2.manifest).isSome = true := by
  decide

/-- Claim C3 (amended): within Install and Update the manifest write is
strictly ordered after every content write; an Install stopped before its
manifest write leaves a manifest-free target, inspected as Absent, so the
retry runs as a fresh Install.  (An interrupted Update instead leaves the
previous manifest in place — see the counterexample.) -/
theorem manifest_write_ordered (p : Profile) (reg : SkillRegistry) :
    (Profiles.installPlan p reg).getLast? =
      some (WriteEvent.manifest (mkManifest p (genFiles p reg))) ∧
    (∀ e ∈ (Profiles.installPlan p reg).dropLast, isManifestWrite e = false) ∧
    (∀ t k, t.manifest = none → k < (Profiles.installPlan p reg).length →
      inspect (applyEvents t ((Profiles.installPlan p reg).take k)) =
        InstallState.Absent) ∧
    (∀ force t man, t.manifest = some man →
      ∀ e ∈ (Profiles.updEvents p reg force t man).dropLast,
        isManifestWrite e = false) := by
  refine ⟨?_, ?_, ?_, ?_⟩
  · unfold Profiles.installPlan
    exact List.getLast?_concat _
  · unfold Profiles.installPlan
    rw [List.dropLast_concat]
    intro e he
    obtain ⟨f, _, rfl⟩ := List.mem_map.mp he
    rfl
  · intro t k ht hk
    have hk2 : k ≤ ((genFiles p reg).map (fun f => WriteEvent.content f.1 f.2)).length := by
      have hlen : (Profiles.installPlan p reg).length = (genFiles p reg).length + 1 := by
        simp [Profiles.installPlan]
      rw [hlen] at hk
      simp only [List.length_map]
      omega
    unfold Profiles.installPlan
    rw [List.take_append_of_le_length hk2]
    have hno : ∀ e ∈ ((genFiles p reg).map (fun f => WriteEvent.content f.1 f.2)).take k,
        isManifestWrite e = false := by
      intro e he
      obtain ⟨f, _, rfl⟩ := List.mem_map.mp (List.take_subset k _ he)
      rfl
    have hm := applyEvents_manifest_nochange _ t hno
    simp [inspect, hm, ht]
  · intro force t man _ e he
    unfold Profiles.updEvents at he
    have hcr : ∀ e2, e2 ∈ (Profiles.updWrites p reg force t man).map
          (fun f => WriteEvent.content f.1 f.2) ++
        (Profiles.updStale p reg man).map WriteEvent.remove →
        isManifestWrite e2 = false := by
      intro e2 he2
      rcases List.mem_append.mp he2 with h1 | h2
      · obtain ⟨f, _, rfl⟩ := List.mem_map.mp h1
        rfl
      · obtain ⟨q, _, rfl⟩ := List.mem_map.mp h2
        rfl
    by_cases hch : Profiles.updChanged p reg force t man = true
    · rw [if_pos hch, List.dropLast_concat] at he
      exact hcr e he
    · rw [if_neg hch, List.append_nil] at he
      exact hcr e ((List.dropLast_sublist _).subset he)

/-- Concrete run of the amended ordering claim: stopping the sample install
after two of its four events leaves the target Absent, and the plan ends in
the manifest write. -/
theorem manifest_write_ordered_witness :
    inspect (applyEvents emptyTarget
      ((Profiles.installPlan twoSkillProfile fullReg).take 2)) = InstallState.Absent ∧
    (Profiles.installPlan twoSkillProfile fullReg).getLast? =
      some (WriteEvent.manifest (mkManifest twoSkillProfile
        (genFiles twoSkillProfile fullReg))) :=
  ⟨(manifest_write_ordered twoSkillProfile fullReg).2.2.1 emptyTarget 2 rfl (by decide),
   (manifest_write_ordered twoSkillProfile fullReg).1⟩

set_option maxRecDepth 8192 in
/-- Claim C3 counterexample: an Update run (upstream instructions edited)
issues one content write and then its manifest write; stopped right before
the manifest write, the target still holds the previous manifest and is
inspected as Installed — not Absent, and the retry would run as an Update,
refuting the claim's universal no-manifest consequence for Update runs. -/
theorem update_keeps_old_manifest_counterexample :
    editedOutcome.events.length = 2 ∧
    isManifestWrite (editedOutcome.events.getLastD (WriteEvent.remove GenPath.primary)) =
      true ∧
    editedOutcome.events.dropLast.all (fun e => ! isManifestWrite e) = true ∧
    (applyEvents installedTargetSample editedOutcome.events.dropLast).manifest =
      some (mkManifest twoSkillProfile (genFiles twoSkillProfile fullReg)) ∧
    inspect (applyEvents installedTargetSample editedOutcome.events.dropLast) =
      InstallState.Installed := by
  decide

/-- The keys of the recorded Update manifest all come from the generated
file set. -/
theorem updEntries_keys_sub (p : Profile) (reg : SkillRegistry) (force : Bool)
    (t : Target) (man : InstalledManifest) (q : GenPath)
    (hq : q ∈ (Profiles.updEntries p reg force t man).map (fun e => e.1)) :
    (genFiles p reg).any (fun g => decide (g.1 = q)) = true := by
  obtain ⟨e, he, heq⟩ := List.mem_map.mp hq
  obtain ⟨y, hy, hgy⟩ := List.mem_filterMap.mp he
  rw [fileEntry_eq] at hgy
  obtain ⟨h0, _, hey⟩ := Option.map_eq_some'.mp hgy
  refine List.any_eq_true.mpr ⟨y, hy, ?_⟩
  rw [← hey] at heq
  simp [← heq]

/-- Claim C4: a previously generated file whose on-disk hash differs from
the recorded hash is left unchanged and reported as drifted by Update
without force, overwritten by Update with force, and the drift does not
stop the run for unaffected files (a missing file is still recreated). -/
theorem update_drift_detection (p : Profile) (reg : SkillRegistry) (t : Target)
    (man : InstalledManifest) (q : GenPath) (d newC : String) (h0 : Nat)
    (r rf : Profiles.UpdateOutcome)
    (hnd : p.skills.Nodup)
    (ht : t.manifest = some man)
    (hfile : (q, newC) ∈ genFiles p reg)
    (hdisk : t.fs q = some d)
    (hman : Profiles.manifestHash man q = some h0)
    (hdrift : contentHash d ≠ h0)
    (hr : Profiles.update_installed p reg false t = some r)
    (hrf : Profiles.update_installed p reg true t = some rf) :
    q ∈ r.drifted ∧ q ∉ r.written ∧ r.target.fs q = some d ∧
    q ∈ rf.written ∧ rf.target.fs q = some newC ∧
    (∀ q2 c2, (q2, c2) ∈ genFiles p reg → t.fs q2 = none →
      r.target.fs q2 = some c2) := by
  have hpaths := genFiles_paths_nodup p reg hnd
  simp only [Profiles.update_installed, ht, Option.some.injEq] at hr hrf
  subst hr
  subst hrf
  have hact : Profiles.updAct false man t (q, newC) = Profiles.FileAction.skipDrift := by
    show Profiles.fileAction false (Profiles.manifestHash man q) (t.fs q) newC = _
    rw [hman, hdisk]
    simp [Profiles.fileAction, hdrift]
  have hactf : Profiles.updAct true man t (q, newC) = Profiles.FileAction.write := by
    show Profiles.fileAction true (Profiles.manifestHash man q) (t.fs q) newC = _
    rw [hman, hdisk]
    simp [Profiles.fileAction, hdrift]
  refine ⟨?_, ?_, ?_, ?_, ?_, ?_⟩
  · exact List.mem_map.mpr ⟨(q, newC),
      List.mem_filter.mpr ⟨hfile, by simp [hact]⟩, rfl⟩
  · intro hqw
    obtain ⟨g, hg, hgq⟩ := List.mem_map.mp hqw
    have hgfiles := (List.mem_filter.mp hg).1
    have hgw : Profiles.updAct false man t g = Profiles.FileAction.write := by
      have := (List.mem_filter.mp hg).2
      simpa using this
    rw [eq_of_mem_keysNodup _ hpaths g (q, newC) hgfiles hfile hgq] at hgw
    rw [hact] at hgw
    cases hgw
  · have := update_fs_at p reg false t man hpaths (q, newC) hfile
    rw [hact] at this
    simpa [hdisk] using this
  · exact List.mem_map.mpr ⟨(q, newC),
      List.mem_filter.mpr ⟨hfile, by simp [hactf]⟩, rfl⟩
  · have := update_fs_at p reg true t man hpaths (q, newC) hfile
    rw [hactf] at this
    simpa using this
  · intro q2 c2 hf2 hnone
    have hact2 : Profiles.updAct false man t (q2, c2) = Profiles.FileAction.write := by
      show Profiles.fileAction false (Profiles.manifestHash man q2) (t.fs q2) c2 = _
      rw [hnone]
      rfl
    have := update_fs_at p reg false t man hpaths (q2, c2) hf2
    rw [hact2] at this
    simpa using this

set_option maxRecDepth 8192 in
/-- Concrete run of the drift claim: the primary instruction file of the
installed sample target is hand-edited; Update without force leaves the
edit in place and reports the path drifted, Update with force regenerates
it. -/
theorem update_drift_detection_witness :
    GenPath.primary ∈ driftedOutcome.drifted ∧
    GenPath.primary ∉ driftedOutcome.written ∧
    driftedOutcome.target.fs GenPath.primary = some ("edited by hand") ∧
    GenPath.primary ∈ driftedOutcomeForce.written ∧
    driftedOutcomeForce.target.fs GenPath.primary =
      some (renderPrimary twoSkillProfile fullReg) := by
  have h := update_drift_detection twoSkillProfile fullReg driftedTarget
    (mkManifest twoSkillProfile (genFiles twoSkillProfile fullReg))
    GenPath.primary ("edited by hand") (renderPrimary twoSkillProfile fullReg)
    (contentHash (renderPrimary twoSkillProfile fullReg))
    driftedOutcome driftedOutcomeForce
    (by decide) rfl (by decide) rfl (by decide) (by decide) rfl rfl
  exact ⟨h.1, h.2.1, h.2.2.1, h.2.2.2.1, h.2.2.2.2.1⟩

/-- Claim C2: Update is idempotent — an immediate second Update with no
intervening change performs zero file writes: nothing written, nothing
deleted, no manifest write, an empty event list, and an unchanged target. -/
theorem update_idempotent (p : Profile) (reg : SkillRegistry) (force : Bool) (t : Target)
    (r r2 : Profiles.UpdateOutcome)
    (hnd : p.skills.Nodup)
    (h1 : Profiles.update_installed p reg force t = some r)
    (h2 : Profiles.update_installed p reg force r.target = some r2) :
    r2.written = [] ∧ r2.deleted = [] ∧ r2.manifest_written = false ∧
    r2.events = [] ∧ r2.target = r.target := by
  have hpaths := genFiles_paths_nodup p reg hnd
  rcases ht : t.manifest with _ | man
  · simp [Profiles.update_installed, ht] at h1
  · simp only [Profiles.update_installed, ht, Option.some.injEq] at h1
    subst h1
    have ht2 : (applyEvents t (Profiles.updEvents p reg force t man)).manifest =
        some (Profiles.updManifest p reg force t man) :=
      updTarget_manifest p reg force t man ht
    simp only [Profiles.update_installed, ht2, Option.some.injEq] at h2
    subst h2
    have hstab : ∀ f ∈ genFiles p reg,
        Profiles.updAct force (Profiles.updManifest p reg force t man)
            (applyEvents t (Profiles.updEvents p reg force t man)) f ≠
          Profiles.FileAction.write ∧
        Profiles.fileEntry (Profiles.updManifest p reg force t man)
            (Profiles.updAct force (Profiles.updManifest p reg force t man)
              (applyEvents t (Profiles.updEvents p reg force t man)) f) f =
          Profiles.fileEntry man (Profiles.updAct force man t f) f := by
      intro f hf
      have hmh := manifestHash_updManifest p reg force t man hpaths f hf
      have hfs := update_fs_at p reg force t man hpaths f hf
      have hs := fileAction_stable force (Profiles.manifestHash man f.1) (t.fs f.1) f.2
      have hact2 : Profiles.updAct force (Profiles.updManifest p reg force t man)
          (applyEvents t (Profiles.updEvents p reg force t man)) f =
          Profiles.fileAction force
            (entryVal (Profiles.manifestHash man f.1)
              (Profiles.fileAction force (Profiles.manifestHash man f.1) (t.fs f.1) f.2)
              f.2)
            (if Profiles.fileAction force (Profiles.manifestHash man f.1) (t.fs f.1) f.2 =
                Profiles.FileAction.write then some f.2 else t.fs f.1)
            f.2 := by
        show Profiles.fileAction force
            (Profiles.manifestHash (Profiles.updManifest p reg force t man) f.1)
            ((applyEvents t (Profiles.updEvents p reg force t man)).fs f.1) f.2 = _
        rw [hmh, hfs]
        rfl
      constructor
      · rw [hact2]
        exact hs.1
      · have hgoal : Profiles.fileEntry (Profiles.updManifest p reg force t man)
            (Profiles.updAct force (Profiles.updManifest p reg force t man)
              (applyEvents t (Profiles.updEvents p reg force t man)) f) f =
            (entryVal (entryVal (Profiles.manifestHash man f.1)
                (Profiles.fileAction force (Profiles.manifestHash man f.1) (t.fs f.1) f.2)
                f.2)
              (Profiles.fileAction force
                (entryVal (Profiles.manifestHash man f.1)
                  (Profiles.fileAction force (Profiles.manifestHash man f.1) (t.fs f.1) f.2)
                  f.2)
                (if Profiles.fileAction force (Profiles.manifestHash man f.1) (t.fs f.1) f.2 =
                    Profiles.FileAction.write then some f.2 else t.fs f.1)
                f.2)
              f.2).map (fun h => (f.1, h)) := by
          rw [fileEntry_eq, hmh, hact2]
          rfl
        rw [hgoal, hs.2, fileEntry_eq]
        rfl
    have hw2 : Profiles.updWrites p reg force
        (applyEvents t (Profiles.updEvents p reg force t man))
        (Profiles.updManifest p reg force t man) = [] := by
      refine List.filter_eq_nil_iff.mpr ?_
      intro f hf
      simp only [decide_eq_true_eq]
      exact (hstab f hf).1
    have hs2 : Profiles.updStale p reg (Profiles.updManifest p reg force t man) = [] := by
      refine List.filter_eq_nil_iff.mpr ?_
      intro q hq
      have hany := updEntries_keys_sub p reg force t man q hq
      simp [hany]
    have hm2 : Profiles.updManifest p reg force
        (applyEvents t (Profiles.updEvents p reg force t man))
        (Profiles.updManifest p reg force t man) =
        Profiles.updManifest p reg force t man := by
      show Profiles.updManifest _ _ _ _ _ =
        { profile_id := p.id
          updated_at := p.updated_at
          files := Profiles.updEntries p reg force t man }
      unfold Profiles.updManifest
      congr 1
      unfold Profiles.updEntries
      exact List.filterMap_congr (fun f hf => (hstab f hf).2)
    have hch2 : Profiles.updChanged p reg force
        (applyEvents t (Profiles.updEvents p reg force t man))
        (Profiles.updManifest p reg force t man) = false := by
      simp [Profiles.updChanged, hw2, hs2, hm2]
    have hev2 : Profiles.updEvents p reg force
        (applyEvents t (Profiles.updEvents p reg force t man))
        (Profiles.updManifest p reg force t man) = [] := by
      have hrfl : Profiles.updEvents p reg force
          (applyEvents t (Profiles.updEvents p reg force t man))
          (Profiles.updManifest p reg force t man) =
          (Profiles.updWrites p reg force
            (applyEvents t (Profiles.updEvents p reg force t man))
            (Profiles.updManifest p reg force t man)).map
              (fun f => WriteEvent.content f.1 f.2) ++
          (Profiles.updStale p reg
            (Profiles.updManifest p reg force t man)).map WriteEvent.remove ++
          (if Profiles.updChanged p reg force
              (applyEvents t (Profiles.updEvents p reg force t man))
              (Profiles.updManifest p reg force t man) = true
           then [WriteEvent.manifest (Profiles.updManifest p reg force
              (applyEvents t (Profiles.updEvents p reg force t man))
              (Profiles.updManifest p reg force t man))]
           else []) := rfl
      rw [hrfl, hw2, hs2, hch2]
      rfl
    refine ⟨?_, ?_, ?_, ?_, ?_⟩
    · simp [hw2]
    · exact hs2
    · exact hch2
    · exact hev2
    · show applyEvents _ (Profiles.updEvents p reg force
          (applyEvents t (Profiles.updEvents p reg force t man))
          (Profiles.updManifest p reg force t man)) = _
      rw [hev2]
      rfl

set_option maxRecDepth 8192 in
/-- Concrete run of the idempotence claim: updating the freshly installed
sample target once and then again performs zero writes on the second run
and leaves the target identical. -/
theorem update_idempotent_witness :
    secondUpdateOutcome.written = [] ∧ secondUpdateOutcome.deleted = [] ∧
    secondUpdateOutcome.manifest_written = false ∧ secondUpdateOutcome.events = [] ∧
    secondUpdateOutcome.target = firstUpdateOutcome.target :=
  update_idempotent twoSkillProfile fullReg false installedTargetSample
    firstUpdateOutcome secondUpdateOutcome (by decide) rfl rfl

end Rhinolabs
